import Mathlib

/-!
Verification development for the core (compiler + VM) of the ape language:
a bytecode compiler from a parsed AST and a stack virtual machine.

Definitions are shallow embeddings of the Go source.  Parts of the
repository that are not present in the provided sources (the opcode
numeric constants, the instruction encoder/decoder, the data package,
the symbol table, the runtime stack and frame containers, and a few VM
helper functions) are modelled from the specification; each such
definition carries a doc comment starting with `Modelled from the spec:`.
-/

namespace Ape

/-! ## Opcodes and instruction encoding -/

namespace Operation

/-- Modelled from the spec: the opcode numeric constants (file with the
Opcode `iota` block is not under src/); values follow the order of the
opcode table in the spec, starting at 0. -/
def Constant : Nat := 0

/-- Modelled from the spec: opcode value of Pop. -/
def Pop : Nat := 1

/-- Modelled from the spec: opcode value of Add. -/
def Add : Nat := 2

/-- Modelled from the spec: opcode value of Sub. -/
def Sub : Nat := 3

/-- Modelled from the spec: opcode value of Mul. -/
def Mul : Nat := 4

/-- Modelled from the spec: opcode value of Div. -/
def Div : Nat := 5

/-- Modelled from the spec: opcode value of True. -/
def True : Nat := 6

/-- Modelled from the spec: opcode value of False. -/
def False : Nat := 7

/-- Modelled from the spec: opcode value of Null. -/
def Null : Nat := 8

/-- Modelled from the spec: opcode value of Equal. -/
def Equal : Nat := 9

/-- Modelled from the spec: opcode value of NotEqual. -/
def NotEqual : Nat := 10

/-- Modelled from the spec: opcode value of GreaterThan. -/
def GreaterThan : Nat := 11

/-- Modelled from the spec: opcode value of Bang. -/
def Bang : Nat := 12

/-- Modelled from the spec: opcode value of Minus. -/
def Minus : Nat := 13

/-- Modelled from the spec: opcode value of Jump. -/
def Jump : Nat := 14

/-- Modelled from the spec: opcode value of JumpNotTruthy. -/
def JumpNotTruthy : Nat := 15

/-- Modelled from the spec: opcode value of SetGlobal. -/
def SetGlobal : Nat := 16

/-- Modelled from the spec: opcode value of GetGlobal. -/
def GetGlobal : Nat := 17

/-- Modelled from the spec: opcode value of SetLocal. -/
def SetLocal : Nat := 18

/-- Modelled from the spec: opcode value of GetLocal. -/
def GetLocal : Nat := 19

/-- Modelled from the spec: opcode value of GetBuiltin. -/
def GetBuiltin : Nat := 20

/-- Modelled from the spec: opcode value of GetFree. -/
def GetFree : Nat := 21

/-- Modelled from the spec: opcode value of Array. -/
def Array : Nat := 22

/-- Modelled from the spec: opcode value of Hash. -/
def Hash : Nat := 23

/-- Modelled from the spec: opcode value of Index. -/
def Index : Nat := 24

/-- Modelled from the spec: opcode value of Call. -/
def Call : Nat := 25

/-- Modelled from the spec: opcode value of ReturnValue. -/
def ReturnValue : Nat := 26

/-- Modelled from the spec: opcode value of Return. -/
def Return : Nat := 27

/-- Modelled from the spec: opcode value of Closure. -/
def Closure : Nat := 28

/-- `Operation` contains the definition of an operation: its
human-readable name and the size (in bytes) of each operand.
From src/src/compiler/operation/operation.go. -/
structure Operation where
  Name : String
  OperandSizes : List Nat
deriving DecidableEq, Repr

/-- The map from Opcodes to Operations, exactly as in
src/src/compiler/operation/operation.go: it contains entries for
`Constant` and `Add` only. -/
def operations (op : Nat) : Option Operation :=
  if op = Constant then some ⟨"Constant", [2]⟩
  else if op = Add then some ⟨"Add", []⟩
  else none

/-- `Lookup` looks up a given Opcode byte and returns the corresponding
Operation, or the error `Undefined Opcode: <n>`.
From src/src/compiler/operation/operation.go. -/
def Lookup (value : Nat) : Except String Operation :=
  match operations value with
  | some operation => Except.ok operation
  | none => Except.error ("Undefined Opcode: " ++ toString value)

/-- Modelled from the spec: the declared operand widths of every opcode
in the encoding table (the file defining them is not under src/);
2-byte or 1-byte operands, big-endian. -/
def operandWidths (op : Nat) : List Nat :=
  if op = Constant then [2]
  else if op = Jump then [2]
  else if op = JumpNotTruthy then [2]
  else if op = SetGlobal then [2]
  else if op = GetGlobal then [2]
  else if op = Array then [2]
  else if op = Hash then [2]
  else if op = SetLocal then [1]
  else if op = GetLocal then [1]
  else if op = GetBuiltin then [1]
  else if op = GetFree then [1]
  else if op = Call then [1]
  else if op = Closure then [2, 1]
  else []

/-- Modelled from the spec: big-endian encoding of one operand into a
given byte width (2-byte or 1-byte). -/
def encodeOperand (width v : Nat) : List Nat :=
  if width = 2 then [v / 256 % 256, v % 256] else [v % 256]

/-- Modelled from the spec: encode a list of operands against the
declared widths. -/
def encodeOperands : List Nat → List Nat → List Nat
  | w :: ws, v :: vs => encodeOperand w v ++ encodeOperands ws vs
  | _, _ => []

/-- Modelled from the spec: `new-instruction(op, operands…)` produces the
1-byte opcode followed by its big-endian operands (the instruction
encoder file is not under src/). -/
def NewInstruction (op : Nat) (operands : List Nat) : List Nat :=
  op :: encodeOperands (operandWidths op) operands

/-- Modelled from the spec: `read-u16`, big-endian, mirroring the
encoder. -/
def ReadUint16 (l : List Nat) : Nat :=
  l.getD 0 0 * 256 + l.getD 1 0

/-- Modelled from the spec: `read-u8`. -/
def ReadUint8 (l : List Nat) : Nat :=
  l.getD 0 0

end Operation

/-! ## The data model -/

/-- Modelled from the spec: a hashable key is an Integer, a Boolean or a
String (the data package is not under src/). -/
inductive HashKey where
  | int (value : Int)
  | bool (value : Bool)
  | str (value : String)
deriving DecidableEq, Repr

/-- Modelled from the spec: the Value variants of the data package (the
data package is not under src/).  A Builtin is a reference to a
host-provided function, modelled by its index in the host list; a
Closure holds a CompiledFunction (inlined fields) plus captured free
values. -/
inductive Data where
  | integer (value : Int)
  | boolean (value : Bool)
  | string (value : String)
  | null
  | array (elements : List Data)
  | hash (pairs : List (HashKey × Data))
  | compiledFunction (instructions : List Nat) (localCount : Nat) (paramCount : Nat)
  | builtin (index : Nat)
  | closure (fnInstructions : List Nat) (localCount : Nat) (paramCount : Nat) (free : List Data)

/-- Modelled from the spec: every Value exposes a stable type tag used in
error messages. -/
def Data.typeTag : Data → String
  | .integer _ => "INTEGER"
  | .boolean _ => "BOOLEAN"
  | .string _ => "STRING"
  | .null => "NULL"
  | .array _ => "ARRAY"
  | .hash _ => "HASH"
  | .compiledFunction _ _ _ => "COMPILED_FUNCTION"
  | .builtin _ => "BUILTIN"
  | .closure _ _ _ _ => "CLOSURE"

/-- The singleton TRUE value (vm.go). -/
def TRUE : Data := Data.boolean true

/-- The singleton FALSE value (vm.go). -/
def FALSE : Data := Data.boolean false

/-- The singleton NULL value (vm.go). -/
def NULL : Data := Data.null

/-- Modelled from the spec: Integers are signed 64-bit; Go int64
arithmetic wraps around, normalising into [-2^63, 2^63). -/
def wrap64 (n : Int) : Int :=
  (n + 2 ^ 63) % 2 ^ 64 - 2 ^ 63

/-- Modelled from the spec: the host-provided builtin list handed to the
compiler at construction (not under src/); its contents do not matter
for any theorem below, so it is left empty. -/
def Builtins : List String := []

/-! ## Symbol table

Modelled from the spec (the symbols package is not under src/):
symbols have a name, a scope among Global/Local/Builtin/Free and a
0-based index; tables nest through an `outer` link, track a definition
count and an append-only free list. -/

/-- Modelled from the spec: the symbol scopes. -/
inductive SymbolScope where
  | GlobalScope
  | LocalScope
  | BuiltinScope
  | FreeScope
deriving DecidableEq, Repr

/-- Modelled from the spec: a symbol is (name, scope, index). -/
structure Symbol where
  name : String
  scope : SymbolScope
  index : Nat
deriving DecidableEq, Repr

/-- Modelled from the spec: a symbol table is a (name → Symbol) store, a
definition count, a free list, and an optional outer table. -/
inductive SymbolTable where
  | mk (store : List (String × Symbol)) (definitionCount : Nat)
       (free : List Symbol) (outer : Option SymbolTable)

/-- The store of a symbol table. -/
def SymbolTable.store : SymbolTable → List (String × Symbol)
  | .mk s _ _ _ => s

/-- The definition count of a symbol table. -/
def SymbolTable.definitionCount : SymbolTable → Nat
  | .mk _ d _ _ => d

/-- The free list of a symbol table. -/
def SymbolTable.free : SymbolTable → List Symbol
  | .mk _ _ f _ => f

/-- The outer table, if any. -/
def SymbolTable.outer : SymbolTable → Option SymbolTable
  | .mk _ _ _ o => o

/-- Look a name up in an association store. -/
def storeGet (store : List (String × Symbol)) (name : String) : Option Symbol :=
  match store.find? (fun e => e.1 = name) with
  | some e => some e.2
  | none => none

/-- Bind a name in an association store, overwriting an existing
binding of the same name. -/
def storeSet (store : List (String × Symbol)) (name : String) (s : Symbol) :
    List (String × Symbol) :=
  match store with
  | [] => [(name, s)]
  | e :: rest => if e.1 = name then (name, s) :: rest else e :: storeSet rest name s

/-- Modelled from the spec: a fresh, outermost symbol table. -/
def SymbolTable.new : SymbolTable := .mk [] 0 [] none

/-- Modelled from the spec: a fresh symbol table enclosed in `outer`. -/
def SymbolTable.newEnclosed (outer : SymbolTable) : SymbolTable :=
  .mk [] 0 [] (some outer)

/-- Modelled from the spec: `define(name)` assigns the next index in the
current table; scope is Global when the table has no outer, else Local;
rebinding overwrites.  Returns the updated table and the symbol. -/
def SymbolTable.define (t : SymbolTable) (name : String) : SymbolTable × Symbol :=
  match t with
  | .mk store dc fr outer =>
    let scope := match outer with
      | none => SymbolScope.GlobalScope
      | some _ => SymbolScope.LocalScope
    let sym : Symbol := ⟨name, scope, dc⟩
    (.mk (storeSet store name sym) (dc + 1) fr outer, sym)

/-- Modelled from the spec: `define-builtin(index, name)`. -/
def SymbolTable.defineBuiltin (t : SymbolTable) (index : Nat) (name : String) :
    SymbolTable × Symbol :=
  match t with
  | .mk store dc fr outer =>
    let sym : Symbol := ⟨name, SymbolScope.BuiltinScope, index⟩
    (.mk (storeSet store name sym) dc fr outer, sym)

/-- Modelled from the spec: `define-free(original)` records the original
symbol in the table's free list and returns a Free-scoped symbol whose
index is the position in that list; the free symbol is also bound in the
store under the original name. -/
def SymbolTable.defineFree (t : SymbolTable) (original : Symbol) :
    SymbolTable × Symbol :=
  match t with
  | .mk store dc fr outer =>
    let sym : Symbol := ⟨original.name, SymbolScope.FreeScope, fr.length⟩
    (.mk (storeSet store original.name sym) dc (fr ++ [original]) outer, sym)

/-- Modelled from the spec: `resolve(name)`: look up in the current
table; on a miss recurse into the outer table; a Global or Builtin
result propagates unchanged, while a Local or Free result is captured
with `define-free` on the current table.  Returns the symbol together
with the updated table chain. -/
def SymbolTable.resolve : SymbolTable → String → Option (Symbol × SymbolTable)
  | .mk store dc fr outer, name =>
    match storeGet store name with
    | some s => some (s, .mk store dc fr outer)
    | none =>
      match outer with
      | none => none
      | some o =>
        match SymbolTable.resolve o name with
        | none => none
        | some (s, o2) =>
          if s.scope = SymbolScope.GlobalScope ∨ s.scope = SymbolScope.BuiltinScope then
            some (s, .mk store dc fr (some o2))
          else
            let p := SymbolTable.defineFree (.mk store dc fr (some o2)) s
            some (p.2, p.1)

/-- The outer table, with the table itself as fallback (only reached on
unbalanced scope exits, which the compiler never performs). -/
def SymbolTable.outerD (t : SymbolTable) : SymbolTable :=
  match t with
  | .mk _ _ _ (some o) => o
  | .mk s d f none => .mk s d f none

/-! ## The AST consumed by the compiler

The ast package is an external collaborator; the variants and the
attributes below are exactly the ones the compiler dispatches on.  A Go
`HashLiteral` stores its pairs in an unordered map; here the pairs are a
list whose order stands for one iteration order of that map. -/

/-- The AST node variants consumed by `Compiler.Compile`. -/
inductive Node where
  | program (statements : List Node)
  | expressionStatement (expression : Node)
  | infixExpression (operator : String) (left : Node) (right : Node)
  | prefixExpression (operator : String) (right : Node)
  | integerLiteral (value : Int)
  | boolean (value : Bool)
  | stringLiteral (value : String)
  | arrayLiteral (elements : List Node)
  | hashLiteral (pairs : List (Node × Node))
  | indexExpression (left : Node) (index : Node)
  | ifExpression (condition : Node) (consequent : Node) (alternate : Option Node)
  | letStatement (name : String) (value : Node)
  | identifier (value : String)
  | blockStatement (statements : List Node)
  | functionLiteral (parameters : List String) (body : Node)
  | returnStatement (returnValue : Node)
  | callExpression (function : Node) (arguments : List Node)

mutual

/-- Modelled from the spec: the textual rendering of an AST node
(`ast.Node.String()`, not under src/); hash-literal keys must be
sortable by this rendering. -/
def render : Node → String
  | .program stmts => renderList stmts ""
  | .expressionStatement e => render e
  | .infixExpression op l r => "(" ++ render l ++ " " ++ op ++ " " ++ render r ++ ")"
  | .prefixExpression op r => "(" ++ op ++ render r ++ ")"
  | .integerLiteral v => toString v
  | .boolean b => if b then "true" else "false"
  | .stringLiteral s => s
  | .arrayLiteral els => "[" ++ renderList els ", " ++ "]"
  | .hashLiteral ps => "\x7b" ++ renderPairs ps ++ "\x7d"
  | .indexExpression l i => "(" ++ render l ++ "[" ++ render i ++ "])"
  | .ifExpression c t a =>
    "if" ++ render c ++ " " ++ render t ++
      (match a with
       | none => ""
       | some e => "else " ++ render e)
  | .letStatement n v => "let " ++ n ++ " = " ++ render v ++ ";"
  | .identifier s => s
  | .blockStatement stmts => renderList stmts ""
  | .functionLiteral ps b => "fn(" ++ String.intercalate ", " ps ++ ") " ++ render b
  | .returnStatement v => "return " ++ render v ++ ";"
  | .callExpression f args => render f ++ "(" ++ renderList args ", " ++ ")"

/-- Render a list of nodes joined by a separator. -/
def renderList : List Node → String → String
  | [], _ => ""
  | [n], _ => render n
  | n :: rest, sep => render n ++ sep ++ renderList rest sep

/-- Render hash-literal pairs. -/
def renderPairs : List (Node × Node) → String
  | [] => ""
  | (k, v) :: rest => render k ++ ":" ++ render v ++ ", " ++ renderPairs rest

end

/-- The Go compiler sorts hash-literal keys with `sort.Slice` by their
textual form; `insertPair` is one insertion step of that sort over the
(key, value) pairs. -/
def insertPair (x : Node × Node) : List (Node × Node) → List (Node × Node)
  | [] => [x]
  | y :: ys => if render x.1 < render y.1 then x :: y :: ys else y :: insertPair x ys

/-- Sort hash-literal pairs by the textual form of their key (the
deterministic emission order demanded by the spec; `sort.Slice`
guarantees only the ordering, which with distinct keys determines the
result uniquely, so insertion sort is a faithful model). -/
def sortPairs : List (Node × Node) → List (Node × Node)
  | [] => []
  | x :: xs => insertPair x (sortPairs xs)

theorem insertPair_sizeOf (x : Node × Node) (l : List (Node × Node)) :
    sizeOf (insertPair x l) = 1 + sizeOf x + sizeOf l := by
  induction l with
  | nil => simp [insertPair]
  | cons y ys ih =>
    simp only [insertPair]
    by_cases h : render x.1 < render y.1
    · simp [h] <;> omega
    · simp [h, ih] <;> omega

theorem sortPairs_sizeOf (l : List (Node × Node)) :
    sizeOf (sortPairs l) = sizeOf l := by
  induction l with
  | nil => simp [sortPairs]
  | cons x xs ih => simp [sortPairs, insertPair_sizeOf, ih] <;> omega

/-! ## The compiler -/

/-- An emitted instruction: opcode and position
(src/unnamed/part_001, compiler package). -/
structure Emitted where
  opcode : Nat
  position : Nat
deriving DecidableEq, Repr

/-- A compilation scope: the instructions under construction plus the
last and previous emitted instructions (src/unnamed/part_001). -/
structure Scope where
  instructions : List Nat
  emitted : Emitted
  prevEmitted : Emitted
deriving DecidableEq, Repr

instance : Inhabited Scope := ⟨⟨[], ⟨0, 0⟩, ⟨0, 0⟩⟩⟩

/-- The compiler state (src/unnamed/part_001): constants, symbol table,
scope stack and current scope index. -/
structure Compiler where
  constants : List Data
  symbols : SymbolTable
  scopes : List Scope
  currentScope : Nat

/-- Bytecode: the instructions and constants produced by the compiler
(src/unnamed/part_001). -/
structure Bytecode where
  Instructions : List Nat
  Constants : List Data

/-- `New` creates a new compiler (src/unnamed/part_001): a root scope, a
symbol table preloaded with the host builtins, no constants. -/
def Compiler.new : Compiler :=
  let symbolTable := (Builtins.enum.foldl
    (fun t nv => (SymbolTable.defineBuiltin t nv.1 nv.2).1) SymbolTable.new)
  { constants := []
    symbols := symbolTable
    scopes := [⟨[], ⟨0, 0⟩, ⟨0, 0⟩⟩]
    currentScope := 0 }

/-- The scope the compiler is currently emitting into. -/
def Compiler.curScope (c : Compiler) : Scope :=
  c.scopes.getD c.currentScope default

/-- `currentInstructions` (src/unnamed/part_001). -/
def Compiler.currentInstructions (c : Compiler) : List Nat :=
  c.curScope.instructions

/-- The last-emitted bookkeeping of the current scope. -/
def Compiler.curEmitted (c : Compiler) : Emitted :=
  c.curScope.emitted

/-- Replace the current scope by applying `f` to it. -/
def Compiler.updScope (c : Compiler) (f : Scope → Scope) : Compiler :=
  { c with scopes := c.scopes.set c.currentScope (f c.curScope) }

/-- `addConstant` appends to the constant pool and returns the new
constant's index (src/unnamed/part_001). -/
def Compiler.addConstant (c : Compiler) (d : Data) : Compiler × Nat :=
  ({ c with constants := c.constants ++ [d] }, c.constants.length)

/-- `addInstruction` appends bytes to the current scope's instruction
list and returns the position they start at (src/unnamed/part_001). -/
def Compiler.addInstruction (c : Compiler) (ins : List Nat) : Compiler × Nat :=
  let pos := c.currentInstructions.length
  (c.updScope (fun s => { s with instructions := s.instructions ++ ins }), pos)

/-- `setEmitted` shifts the last-emitted pair (src/unnamed/part_001). -/
def Compiler.setEmitted (c : Compiler) (op : Nat) (pos : Nat) : Compiler :=
  c.updScope (fun s => { s with prevEmitted := s.emitted, emitted := ⟨op, pos⟩ })

/-- `emit` encodes an instruction, appends it and records it as last
emitted; returns its position (src/unnamed/part_001). -/
def Compiler.emit (c : Compiler) (op : Nat) (operands : List Nat) : Compiler × Nat :=
  let a := c.addInstruction (Operation.NewInstruction op operands)
  (a.1.setEmitted op a.2, a.2)

/-- `isEmitted` checks whether the last emitted instruction is the given
operation; false on an empty instruction list (src/unnamed/part_001). -/
def Compiler.isEmitted (c : Compiler) (code : Nat) : Bool :=
  if c.currentInstructions.length = 0 then false
  else c.curEmitted.opcode == code

/-- `preventPop` truncates the current instructions at the last emitted
position and restores the previous emitted pair (src/unnamed/part_001). -/
def Compiler.preventPop (c : Compiler) : Compiler :=
  c.updScope (fun s =>
    { s with instructions := s.instructions.take s.emitted.position
             emitted := s.prevEmitted })

/-- Overwrite bytes of a list starting at `pos`
(`changeInstruction`'s loop, src/unnamed/part_001). -/
def writeBytes : List Nat → Nat → List Nat → List Nat
  | l, _, [] => l
  | l, pos, b :: bs => writeBytes (l.set pos b) (pos + 1) bs

/-- `changeInstruction` overwrites the instruction bytes at a position
(src/unnamed/part_001). -/
def Compiler.changeInstruction (c : Compiler) (pos : Nat) (ins : List Nat) : Compiler :=
  c.updScope (fun s => { s with instructions := writeBytes s.instructions pos ins })

/-- `changeOperand` re-encodes the instruction at `pos` with a new
operand, reading the opcode byte in place (src/unnamed/part_001). -/
def Compiler.changeOperand (c : Compiler) (pos : Nat) (operand : Nat) : Compiler :=
  let opcode := c.currentInstructions.getD pos 0
  c.changeInstruction pos (Operation.NewInstruction opcode [operand])

/-- `changeEmittedTo` rewrites the last emitted instruction in place to
the given operation and updates the bookkeeping opcode
(src/unnamed/part_001, `changeEmittedTo`). -/
def Compiler.changeEmittedTo (c : Compiler) (code : Nat) : Compiler :=
  let c2 := c.changeInstruction c.curEmitted.position (Operation.NewInstruction code [])
  c2.updScope (fun s => { s with emitted := { s.emitted with opcode := code } })

/-- `enterScope` pushes a fresh scope and an enclosed symbol table
(src/unnamed/part_001). -/
def Compiler.enterScope (c : Compiler) : Compiler :=
  { c with scopes := c.scopes ++ [⟨[], ⟨0, 0⟩, ⟨0, 0⟩⟩]
           currentScope := c.currentScope + 1
           symbols := SymbolTable.newEnclosed c.symbols }

/-- `leaveScope` pops the top scope, returning its instructions, and
restores the outer symbol table (src/unnamed/part_001). -/
def Compiler.leaveScope (c : Compiler) : Compiler × List Nat :=
  ({ c with scopes := c.scopes.dropLast
            currentScope := c.currentScope - 1
            symbols := c.symbols.outerD },
   c.currentInstructions)

/-- `loadSymbol` emits the get-instruction matching a symbol's scope
(src/unnamed/part_001). -/
def Compiler.loadSymbol (c : Compiler) (s : Symbol) : Compiler :=
  match s.scope with
  | .GlobalScope => (c.emit Operation.GetGlobal [s.index]).1
  | .LocalScope => (c.emit Operation.GetLocal [s.index]).1
  | .BuiltinScope => (c.emit Operation.GetBuiltin [s.index]).1
  | .FreeScope => (c.emit Operation.GetFree [s.index]).1

/-- Strip a just-emitted `Pop` (the `isEmitted`/`preventPop` step used
for if-branches, src/unnamed/part_001). -/
def Compiler.stripPop (c : Compiler) : Compiler :=
  if c.isEmitted Operation.Pop then c.preventPop else c

/-- Define every parameter name as a local in the current symbol table
(the parameter loop of the FunctionLiteral case, src/unnamed/part_001). -/
def Compiler.defineParams (c : Compiler) (params : List String) : Compiler :=
  params.foldl (fun cc p => { cc with symbols := (cc.symbols.define p).1 }) c

mutual

/-- `Compiler.Compile` (src/unnamed/part_001): dispatch on the AST
variant, emitting instructions and constants; errors abort compilation. -/
def compile : Node → Compiler → Except String Compiler
  | .program stmts, c => compileList stmts c
  | .blockStatement stmts, c => compileList stmts c
  | .expressionStatement e, c =>
    (compile e c).bind fun c1 => Except.ok (c1.emit Operation.Pop []).1
  | .infixExpression op l r, c =>
    if op = "<" then
      (compile r c).bind fun c1 =>
        (compile l c1).bind fun c2 =>
          Except.ok (c2.emit Operation.GreaterThan []).1
    else
      (compile l c).bind fun c1 =>
        (compile r c1).bind fun c2 =>
          if op = "+" then Except.ok (c2.emit Operation.Add []).1
          else if op = "-" then Except.ok (c2.emit Operation.Sub []).1
          else if op = "*" then Except.ok (c2.emit Operation.Mul []).1
          else if op = "/" then Except.ok (c2.emit Operation.Div []).1
          else if op = ">" then Except.ok (c2.emit Operation.GreaterThan []).1
          else if op = "==" then Except.ok (c2.emit Operation.Equal []).1
          else if op = "!=" then Except.ok (c2.emit Operation.NotEqual []).1
          else Except.error ("unknown operator " ++ op)
  | .prefixExpression op r, c =>
    (compile r c).bind fun c1 =>
      if op = "!" then Except.ok (c1.emit Operation.Bang []).1
      else if op = "-" then Except.ok (c1.emit Operation.Minus []).1
      else Except.error ("unknown operator " ++ op)
  | .integerLiteral v, c =>
    let a := c.addConstant (Data.integer v)
    Except.ok (a.1.emit Operation.Constant [a.2]).1
  | .boolean b, c =>
    if b then Except.ok (c.emit Operation.True []).1
    else Except.ok (c.emit Operation.False []).1
  | .stringLiteral s, c =>
    let a := c.addConstant (Data.string s)
    Except.ok (a.1.emit Operation.Constant [a.2]).1
  | .arrayLiteral els, c =>
    (compileList els c).bind fun c1 =>
      Except.ok (c1.emit Operation.Array [els.length]).1
  | .hashLiteral pairs, c =>
    (compilePairs (sortPairs pairs) c).bind fun c1 =>
      Except.ok (c1.emit Operation.Hash [pairs.length * 2]).1
  | .indexExpression l i, c =>
    (compile l c).bind fun c1 =>
      (compile i c1).bind fun c2 =>
        Except.ok (c2.emit Operation.Index []).1
  | .ifExpression cond conseq alt, c =>
    (compile cond c).bind fun c1 =>
      let eJnt := c1.emit Operation.JumpNotTruthy [9999]
      (compile conseq eJnt.1).bind fun c2 =>
        let eJmp := c2.stripPop.emit Operation.Jump [9999]
        let c4 := eJmp.1.changeOperand eJnt.2 eJmp.1.currentInstructions.length
        (compileAlt alt c4).bind fun c5 =>
          Except.ok (c5.changeOperand eJmp.2 c5.currentInstructions.length)
  | .letStatement name v, c =>
    let d := c.symbols.define name
    let c0 := { c with symbols := d.1 }
    (compile v c0).bind fun c1 =>
      if d.2.scope = SymbolScope.GlobalScope then
        Except.ok (c1.emit Operation.SetGlobal [d.2.index]).1
      else
        Except.ok (c1.emit Operation.SetLocal [d.2.index]).1
  | .identifier s, c =>
    match c.symbols.resolve s with
    | none => Except.error ("Variable " ++ s ++ " is undefined")
    | some (sym, t) => Except.ok (Compiler.loadSymbol { c with symbols := t } sym)
  | .functionLiteral params body, c =>
    (compile body (c.enterScope.defineParams params)).bind fun c2 =>
      let c3 := if c2.isEmitted Operation.Pop then c2.changeEmittedTo Operation.ReturnValue
                else c2
      let c4 := if c3.isEmitted Operation.ReturnValue then c3
                else (c3.emit Operation.Return []).1
      let freeSymbols := c4.symbols.free
      let localCount := c4.symbols.definitionCount
      let lv := c4.leaveScope
      let c6 := freeSymbols.foldl Compiler.loadSymbol lv.1
      let compiled := Data.compiledFunction lv.2 localCount params.length
      let a := c6.addConstant compiled
      Except.ok (a.1.emit Operation.Closure [a.2, freeSymbols.length]).1
  | .returnStatement v, c =>
    (compile v c).bind fun c1 =>
      Except.ok (c1.emit Operation.ReturnValue []).1
  | .callExpression f args, c =>
    (compile f c).bind fun c1 =>
      (compileList args c1).bind fun c2 =>
        Except.ok (c2.emit Operation.Call [args.length]).1
termination_by n _ => sizeOf n
decreasing_by
all_goals simp_wf
all_goals try simp_all [sortPairs_sizeOf]
all_goals omega

/-- Compile a list of nodes in order, aborting at the first error. -/
def compileList : List Node → Compiler → Except String Compiler
  | [], c => Except.ok c
  | n :: ns, c => (compile n c).bind fun c1 => compileList ns c1
termination_by l _ => sizeOf l
decreasing_by
all_goals simp_wf
all_goals omega

/-- Compile sorted hash pairs: key then value, in order. -/
def compilePairs : List (Node × Node) → Compiler → Except String Compiler
  | [], c => Except.ok c
  | (k, v) :: ps, c =>
    (compile k c).bind fun c1 =>
      (compile v c1).bind fun c2 => compilePairs ps c2
termination_by l _ => sizeOf l
decreasing_by
all_goals simp_wf
all_goals omega

/-- The alternate of an if-expression: emit `Null` when absent, else
compile it and strip a trailing `Pop` (src/unnamed/part_001). -/
def compileAlt : Option Node → Compiler → Except String Compiler
  | none, c => Except.ok (c.emit Operation.Null []).1
  | some a, c => (compile a c).map Compiler.stripPop
termination_by o _ => sizeOf o
decreasing_by
all_goals simp_wf
all_goals omega

end

/-- `Bytecode()` produces the bytecode artifact (src/unnamed/part_001). -/
def Compiler.bytecode (c : Compiler) : Bytecode :=
  ⟨c.currentInstructions, c.constants⟩

/-! ## The virtual machine -/

/-- Capacity of the globals array (vm.go). -/
def GlobalsLimit : Nat := 65536

/-- Capacity of the stack (vm.go). -/
def StackLimit : Nat := 2048

/-- Capacity of the frame stack (vm.go). -/
def FrameLimit : Nat := 1024

/-- A VM error outcome.  `err` is an error value returned by `Run`;
`goPanic` marks an unrecovered Go runtime panic (such as integer
division by zero), which in Go aborts the process and is never a
returned error — the embedding keeps the two apart. -/
inductive VMError where
  | err (message : String)
  | goPanic (message : String)
deriving DecidableEq, Repr

/-- Modelled from the spec: the runtime stack (stack file not under
src/): a fixed-capacity value array with a stack pointer one past the
top; `push` fails with stack overflow at capacity; the popped slot is
not zeroed. -/
structure Stack where
  items : List Data
  pointer : Nat
  limit : Nat

/-- Modelled from the spec: a fresh stack of the given capacity. -/
def Stack.newStack (limit : Nat) : Stack :=
  ⟨List.replicate limit Data.null, 0, limit⟩

/-- Modelled from the spec: `push` writes at the stack pointer and
advances it, failing with stack overflow at capacity. -/
def Stack.push (s : Stack) (v : Data) : Except VMError Stack :=
  if s.limit ≤ s.pointer then Except.error (VMError.err "stack overflow")
  else Except.ok { s with items := s.items.set s.pointer v, pointer := s.pointer + 1 }

/-- Modelled from the spec: `pop` returns the top value and decrements
the pointer without zeroing the slot. -/
def Stack.pop (s : Stack) : Data × Stack :=
  (s.items.getD (s.pointer - 1) Data.null, { s with pointer := s.pointer - 1 })

/-- Modelled from the spec: the value on top of the stack (used by the
Call case of vm.go). -/
def Stack.top (s : Stack) : Data :=
  s.items.getD (s.pointer - 1) Data.null

/-- Modelled from the spec: `popped` returns the slot one below the
current stack pointer — the last value removed. -/
def Stack.popped (s : Stack) : Data :=
  s.items.getD s.pointer Data.null

/-- Modelled from the spec: a call frame holds the compiled function's
fields, an instruction pointer, and the frame pointer into the stack;
the instruction pointer starts at −1 so that the main loop's increment
lands on instruction 0 (frame file not under src/). -/
structure Frame where
  instructions : List Nat
  localCount : Nat
  paramCount : Nat
  pointer : Int
  framePointer : Nat

instance : Inhabited Frame := ⟨⟨[], 0, 0, -1, 0⟩⟩

/-- Modelled from the spec: `NewFrame(fn, fp)`. -/
def Frame.newFrame (instructions : List Nat) (localCount paramCount : Nat)
    (framePointer : Nat) : Frame :=
  ⟨instructions, localCount, paramCount, -1, framePointer⟩

/-- The VM state (vm.go): constants, globals, stack, and the frame
stack (head is the current frame). -/
structure VM where
  constants : List Data
  globals : List Data
  stack : Stack
  frames : List Frame

/-- `New` creates a VM from bytecode (vm.go): the instructions become
the main function of the bottom frame at frame pointer 0. -/
def VM.newVM (bytecode : Bytecode) : VM :=
  { constants := bytecode.Constants
    globals := List.replicate GlobalsLimit Data.null
    stack := Stack.newStack StackLimit
    frames := [Frame.newFrame bytecode.Instructions 0 0 0] }

/-- `NewWithGlobals` adopts a caller-supplied globals array (vm.go). -/
def VM.newWithGlobals (bytecode : Bytecode) (globals : List Data) : VM :=
  { VM.newVM bytecode with globals := globals }

/-- The current frame (top of the frame stack). -/
def VM.currentFrame (vm : VM) : Frame :=
  vm.frames.headD default

/-- Replace the current frame. -/
def VM.updFrame (vm : VM) (f : Frame → Frame) : VM :=
  { vm with frames := match vm.frames with
                      | [] => []
                      | h :: t => f h :: t }

/-- Set the current frame's instruction pointer. -/
def VM.setPointer (vm : VM) (p : Int) : VM :=
  vm.updFrame (fun fr => { fr with pointer := p })

/-- `Result` returns the value of the last popped element (vm.go). -/
def VM.result (vm : VM) : Data :=
  vm.stack.popped

/-- `isTruthy` (vm.go): a Boolean reflects its value, Null is false,
everything else is true. -/
def isTruthy : Data → Bool
  | .boolean b => b
  | .null => false
  | _ => true

/-- `executeBinaryIntegerOp` (src/unnamed/part_001, vm package): int64
arithmetic on the two operand values; division is unguarded in the
source, so a zero divisor is the Go runtime panic, not a returned
error. -/
def VM.executeBinaryIntegerOp (st : Stack) (op : Nat) (left right : Data) :
    Except VMError Stack :=
  let leftValue := match left with
    | .integer v => v
    | _ => 0
  let rightValue := match right with
    | .integer v => v
    | _ => 0
  if op = Operation.Add then st.push (Data.integer (wrap64 (leftValue + rightValue)))
  else if op = Operation.Sub then st.push (Data.integer (wrap64 (leftValue - rightValue)))
  else if op = Operation.Mul then st.push (Data.integer (wrap64 (leftValue * rightValue)))
  else if op = Operation.Div then
    if rightValue = 0 then Except.error (VMError.goPanic "runtime error: integer divide by zero")
    else st.push (Data.integer (wrap64 (leftValue.div rightValue)))
  else Except.error (VMError.err ("unknown integer operator: " ++ toString op))

/-- `executeBinaryOp` (src/unnamed/part_001, vm package): pop right then
left; both must be INTEGER, otherwise the unsupported-types error. -/
def VM.executeBinaryOp (st : Stack) (op : Nat) : Except VMError Stack :=
  let pr := st.pop
  let pl := pr.2.pop
  let right := pr.1
  let left := pl.1
  if left.typeTag = "INTEGER" ∧ right.typeTag = "INTEGER" then
    VM.executeBinaryIntegerOp pl.2 op left right
  else
    Except.error (VMError.err
      ("unsupported types for binary operation: " ++ left.typeTag ++ " " ++ right.typeTag))

/-- Modelled from the spec: `executeBangOp` pops and pushes the negated
truthiness (not under src/). -/
def VM.executeBangOp (st : Stack) : Except VMError Stack :=
  let p := st.pop
  p.2.push (if isTruthy p.1 then FALSE else TRUE)

/-- Modelled from the spec: `executeMinusOp` pops an Integer and pushes
its (wrapping) negation; any other type is a type-mismatch error (not
under src/). -/
def VM.executeMinusOp (st : Stack) : Except VMError Stack :=
  let p := st.pop
  match p.1 with
  | .integer v => p.2.push (Data.integer (wrap64 (-v)))
  | d => Except.error (VMError.err ("unsupported type for negation: " ++ d.typeTag))

/-- Modelled from the spec: equality on primitive values — same-typed
Integer/Boolean/String compare by value, every other pair compares
false (not under src/). -/
def primEq : Data → Data → Bool
  | .integer a, .integer b => a == b
  | .boolean a, .boolean b => a == b
  | .string a, .string b => a == b
  | _, _ => false

/-- Modelled from the spec: `executeComparison` — Equal/NotEqual on any
pair via primitive equality, GreaterThan only on Integers (not under
src/). -/
def VM.executeComparison (st : Stack) (op : Nat) : Except VMError Stack :=
  let pr := st.pop
  let pl := pr.2.pop
  let right := pr.1
  let left := pl.1
  match left, right with
  | .integer lv, .integer rv =>
    if op = Operation.Equal then pl.2.push (Data.boolean (lv == rv))
    else if op = Operation.NotEqual then pl.2.push (Data.boolean (lv != rv))
    else if op = Operation.GreaterThan then pl.2.push (Data.boolean (rv < lv))
    else Except.error (VMError.err ("unknown operator: " ++ toString op))
  | l, r =>
    if op = Operation.Equal then pl.2.push (Data.boolean (primEq l r))
    else if op = Operation.NotEqual then pl.2.push (Data.boolean (!primEq l r))
    else Except.error (VMError.err
      ("unknown operator: " ++ toString op ++ " (" ++ l.typeTag ++ " " ++ r.typeTag ++ ")"))

/-- Modelled from the spec: `buildArray` collects the stack slots in
[start, end) into an Array value (not under src/). -/
def VM.buildArray (st : Stack) (start stop : Nat) : Data :=
  Data.array ((st.items.drop start).take (stop - start))

/-- Modelled from the spec: the hash key of a hashable value. -/
def toHashKey : Data → Option HashKey
  | .integer v => some (HashKey.int v)
  | .boolean b => some (HashKey.bool b)
  | .string s => some (HashKey.str s)
  | _ => none

/-- Insert into an association list, overwriting an equal key. -/
def assocSet (pairs : List (HashKey × Data)) (k : HashKey) (v : Data) :
    List (HashKey × Data) :=
  match pairs with
  | [] => [(k, v)]
  | e :: rest => if e.1 = k then (k, v) :: rest else e :: assocSet rest k v

/-- Look up in an association list. -/
def assocGet (pairs : List (HashKey × Data)) (k : HashKey) : Option Data :=
  match pairs with
  | [] => none
  | e :: rest => if e.1 = k then some e.2 else assocGet rest k

/-- Modelled from the spec: the pair-collection loop of `buildHash`,
walking indices start, start+2, … and failing on a non-hashable key
(not under src/). -/
def VM.buildHashAux (items : List Data) (i stop fuel : Nat)
    (acc : List (HashKey × Data)) : Except VMError (List (HashKey × Data)) :=
  match fuel with
  | 0 => Except.ok acc
  | fuel + 1 =>
    if i < stop then
      let key := items.getD i Data.null
      let value := items.getD (i + 1) Data.null
      match toHashKey key with
      | none => Except.error (VMError.err ("unusable as hash key: " ++ key.typeTag))
      | some hk => VM.buildHashAux items (i + 2) stop fuel (assocSet acc hk value)
    else Except.ok acc

/-- Modelled from the spec: `buildHash` over the stack region
[start, stop) (not under src/). -/
def VM.buildHash (st : Stack) (start stop : Nat) : Except VMError Data :=
  (VM.buildHashAux st.items start stop (stop - start) []).map Data.hash

/-- Modelled from the spec: `executeIndexExpr` — Array×Integer yields
the element or Null when out of range; Hash×hashable yields the stored
value or Null, a non-hashable key fails; any other collection type
fails (not under src/). -/
def VM.executeIndexExpr (st : Stack) (left index : Data) : Except VMError Stack :=
  match left, index with
  | .array elements, .integer i =>
    if 0 ≤ i ∧ i < (elements.length : Int) then
      st.push (elements.getD i.toNat Data.null)
    else st.push NULL
  | .hash pairs, key =>
    match toHashKey key with
    | none => Except.error (VMError.err ("unusable as hash key: " ++ key.typeTag))
    | some hk =>
      match assocGet pairs hk with
      | some v => st.push v
      | none => st.push NULL
  | l, _ =>
    Except.error (VMError.err ("index operator not supported: " ++ l.typeTag))

/-- The loop condition of `Run` (vm.go): the current frame's pointer is
less than its instruction length minus one. -/
def VM.loopCond (vm : VM) : Prop :=
  vm.currentFrame.pointer < (vm.currentFrame.instructions.length : Int) - 1

instance (vm : VM) : Decidable (VM.loopCond vm) := by
  unfold VM.loopCond; infer_instance

/-- The opcodes that have a case in the dispatch switch of `VM.Run`
(vm.go); `GetBuiltin`, `GetFree` and `Closure` have none, and there is
no default branch. -/
def handledOpcodes : List Nat :=
  [Operation.Pop, Operation.Constant, Operation.True, Operation.False,
   Operation.Bang, Operation.Minus,
   Operation.Add, Operation.Sub, Operation.Mul, Operation.Div,
   Operation.Equal, Operation.NotEqual, Operation.GreaterThan,
   Operation.Jump, Operation.JumpNotTruthy, Operation.Null,
   Operation.SetGlobal, Operation.GetGlobal,
   Operation.SetLocal, Operation.GetLocal,
   Operation.Array, Operation.Hash, Operation.Index,
   Operation.Call, Operation.ReturnValue, Operation.Return]

/-- One iteration of the `Run` loop body (vm.go): increment the current
frame's instruction pointer, read the opcode there, and dispatch.  An
opcode without a case falls through the switch, leaving only the
increment.  The Constant case's `vm.constants[constIndex]` is a Go
index expression that panics when the index is outside the pool
(vm.go line 80); the out-of-range branch is therefore the `goPanic`
outcome, not a handled error. -/
def VM.step (vm0 : VM) : Except VMError VM :=
  let p : Int := vm0.currentFrame.pointer + 1
  let instructions := vm0.currentFrame.instructions
  let pn : Nat := p.toNat
  let op := instructions.getD pn 0
  let vm := vm0.setPointer p
  if op = Operation.Pop then
    Except.ok { vm with stack := vm.stack.pop.2 }
  else if op = Operation.Constant then
    let constIndex := Operation.ReadUint16 (instructions.drop (pn + 1))
    let vm := vm.setPointer (p + 2)
    if constIndex < vm.constants.length then
      (vm.stack.push (vm.constants.getD constIndex Data.null)).map
        (fun st => { vm with stack := st })
    else Except.error (VMError.goPanic "runtime error: index out of range")
  else if op = Operation.True then
    (vm.stack.push TRUE).map (fun st => { vm with stack := st })
  else if op = Operation.False then
    (vm.stack.push FALSE).map (fun st => { vm with stack := st })
  else if op = Operation.Bang then
    (VM.executeBangOp vm.stack).map (fun st => { vm with stack := st })
  else if op = Operation.Minus then
    (VM.executeMinusOp vm.stack).map (fun st => { vm with stack := st })
  else if op = Operation.Add ∨ op = Operation.Sub ∨ op = Operation.Mul ∨
      op = Operation.Div then
    (VM.executeBinaryOp vm.stack op).map (fun st => { vm with stack := st })
  else if op = Operation.Equal ∨ op = Operation.NotEqual ∨
      op = Operation.GreaterThan then
    (VM.executeComparison vm.stack op).map (fun st => { vm with stack := st })
  else if op = Operation.Jump then
    let pos := Operation.ReadUint16 (instructions.drop (pn + 1))
    Except.ok (vm.setPointer ((pos : Int) - 1))
  else if op = Operation.JumpNotTruthy then
    let pos := Operation.ReadUint16 (instructions.drop (pn + 1))
    let vm := vm.setPointer (p + 2)
    let pc := vm.stack.pop
    let vm := { vm with stack := pc.2 }
    if !isTruthy pc.1 then Except.ok (vm.setPointer ((pos : Int) - 1))
    else Except.ok vm
  else if op = Operation.Null then
    (vm.stack.push NULL).map (fun st => { vm with stack := st })
  else if op = Operation.SetGlobal then
    let index := Operation.ReadUint16 (instructions.drop (pn + 1))
    let vm := vm.setPointer (p + 2)
    let pc := vm.stack.pop
    Except.ok { vm with stack := pc.2, globals := vm.globals.set index pc.1 }
  else if op = Operation.GetGlobal then
    let index := Operation.ReadUint16 (instructions.drop (pn + 1))
    let vm := vm.setPointer (p + 2)
    (vm.stack.push (vm.globals.getD index Data.null)).map
      (fun st => { vm with stack := st })
  else if op = Operation.SetLocal then
    let localIndex := Operation.ReadUint8 (instructions.drop (pn + 1))
    let vm := vm.setPointer (p + 1)
    let frame := vm.currentFrame
    let pc := vm.stack.pop
    Except.ok { vm with stack :=
      { pc.2 with items := pc.2.items.set (frame.framePointer + localIndex) pc.1 } }
  else if op = Operation.GetLocal then
    let localIndex := Operation.ReadUint8 (instructions.drop (pn + 1))
    let vm := vm.setPointer (p + 1)
    let frame := vm.currentFrame
    (vm.stack.push (vm.stack.items.getD (frame.framePointer + localIndex) Data.null)).map
      (fun st => { vm with stack := st })
  else if op = Operation.Array then
    let numElements := Operation.ReadUint16 (instructions.drop (pn + 1))
    let vm := vm.setPointer (p + 2)
    let array := VM.buildArray vm.stack (vm.stack.pointer - numElements) vm.stack.pointer
    let st0 : Stack := { vm.stack with pointer := vm.stack.pointer - numElements }
    (st0.push array).map (fun st => { vm with stack := st })
  else if op = Operation.Hash then
    let numElements := Operation.ReadUint16 (instructions.drop (pn + 1))
    let vm := vm.setPointer (p + 2)
    match VM.buildHash vm.stack (vm.stack.pointer - numElements) vm.stack.pointer with
    | Except.error e => Except.error e
    | Except.ok hash =>
      let st0 : Stack := { vm.stack with pointer := vm.stack.pointer - numElements }
      (st0.push hash).map (fun st => { vm with stack := st })
  else if op = Operation.Index then
    let pi := vm.stack.pop
    let pl := pi.2.pop
    (VM.executeIndexExpr pl.2 pl.1 pi.1).map (fun st => { vm with stack := st })
  else if op = Operation.Call then
    let vm := vm.setPointer (p + 1)
    match vm.stack.top with
    | Data.compiledFunction ins lc pc2 =>
      let frame := Frame.newFrame ins lc pc2 vm.stack.pointer
      let vm := { vm with frames := frame :: vm.frames }
      Except.ok { vm with stack := { vm.stack with pointer := frame.framePointer + lc } }
    | _ => Except.error (VMError.err "calling non-function")
  else if op = Operation.ReturnValue then
    let pv := vm.stack.pop
    let frame := vm.currentFrame
    let vm2 := { vm with frames := vm.frames.tail,
                         stack := { pv.2 with pointer := frame.framePointer - 1 } }
    (vm2.stack.push pv.1).map (fun st => { vm2 with stack := st })
  else if op = Operation.Return then
    let frame := vm.currentFrame
    let vm2 := { vm with frames := vm.frames.tail,
                         stack := { vm.stack with pointer := frame.framePointer - 1 } }
    (vm2.stack.push NULL).map (fun st => { vm2 with stack := st })
  else
    Except.ok vm

/-- `Run` (vm.go) with explicit fuel: `none` means the fuel ran out,
`some (ok vm)` a normal exit of the loop, `some (error e)` an aborting
error. -/
def VM.run : Nat → VM → Option (Except VMError VM)
  | 0, _ => none
  | fuel + 1, vm =>
    if VM.loopCond vm then
      match VM.step vm with
      | Except.ok vm2 => VM.run fuel vm2
      | Except.error e => some (Except.error e)
    else some (Except.ok vm)

/-- Whether a `run` outcome is a normal (error-free) exit. -/
def runOk : Option (Except VMError VM) → Bool
  | some (Except.ok _) => true
  | _ => false

/-- The observable shape of one successful sub-compilation, used as a
hypothesis about recursive `compile` calls: the scope index and scope
count are restored, the constant pool only grows, and the current
scope's instructions only gain a suffix. -/
def ScopeExt (c c2 : Compiler) : Prop :=
  c2.currentScope = c.currentScope ∧
  c2.scopes.length = c.scopes.length ∧
  (∃ k, c2.constants = c.constants ++ k) ∧
  (∃ d, c2.currentInstructions = c.currentInstructions ++ d)

/-- The accuracy of the last-emitted bookkeeping after a sub-compilation
starting from `c`: when the recorded opcode is `op`, the buffer ends
with that freshly encoded instruction, its recorded position points at
its first byte, and it lies at or after the old end of the buffer. -/
def LastShape (c c2 : Compiler) (op : Nat) : Prop :=
  c2.curEmitted.opcode = op →
    ∃ pre args, c2.currentInstructions = pre ++ Operation.NewInstruction op args ∧
      c2.curEmitted.position = pre.length ∧
      c.currentInstructions.length ≤ pre.length

/-! ## Supporting lemmas -/

theorem getD_set_self (l : List Scope) (i : Nat) (s : Scope) (h : i < l.length) :
    (l.set i s).getD i default = s := by
  induction l generalizing i with
  | nil => simp at h
  | cons a t ih =>
    cases i with
    | zero => rfl
    | succ n => simpa using ih n (by simpa using h)

theorem getD_append_length (l : List Scope) (x : Scope) :
    (l ++ [x]).getD l.length default = x := by
  induction l with
  | nil => rfl
  | cons a t ih => simpa using ih

theorem set_append_cons (X : List Nat) (a b : Nat) (Z : List Nat) :
    (X ++ a :: Z).set X.length b = X ++ b :: Z := by
  induction X with
  | nil => rfl
  | cons h t ih => simpa using ih

theorem writeBytes_append (new : List Nat) : ∀ (X old Y : List Nat),
    old.length = new.length →
    writeBytes (X ++ old ++ Y) X.length new = X ++ new ++ Y := by
  induction new with
  | nil =>
    intro X old Y h
    have : old = [] := List.eq_nil_of_length_eq_zero h
    subst this
    simp [writeBytes]
  | cons b bs ih =>
    intro X old Y h
    cases old with
    | nil => simp at h
    | cons a as =>
      simp only [writeBytes]
      have h1 : (X ++ (a :: as) ++ Y).set X.length b = (X ++ [b]) ++ as ++ Y := by
        have := set_append_cons X a b (as ++ Y)
        simpa using this
      rw [h1]
      have h2 : X.length + 1 = (X ++ [b]).length := by simp
      rw [h2, ih (X ++ [b]) as Y (by simpa using h)]
      simp

theorem updScope_currentScope (c : Compiler) (f : Scope → Scope) :
    (c.updScope f).currentScope = c.currentScope := rfl

theorem updScope_scopes_length (c : Compiler) (f : Scope → Scope) :
    (c.updScope f).scopes.length = c.scopes.length := by
  simp [Compiler.updScope]

theorem updScope_constants (c : Compiler) (f : Scope → Scope) :
    (c.updScope f).constants = c.constants := rfl

theorem updScope_symbols (c : Compiler) (f : Scope → Scope) :
    (c.updScope f).symbols = c.symbols := rfl

theorem curScope_updScope (c : Compiler) (f : Scope → Scope)
    (h : c.currentScope < c.scopes.length) :
    (c.updScope f).curScope = f c.curScope := by
  simp only [Compiler.updScope, Compiler.curScope]
  exact getD_set_self _ _ _ h

theorem emit_pos (c : Compiler) (op : Nat) (args : List Nat) :
    (c.emit op args).2 = c.currentInstructions.length := rfl

theorem emit_currentScope (c : Compiler) (op : Nat) (args : List Nat) :
    (c.emit op args).1.currentScope = c.currentScope := rfl

theorem emit_scopes_length (c : Compiler) (op : Nat) (args : List Nat) :
    (c.emit op args).1.scopes.length = c.scopes.length := by
  simp [Compiler.emit, Compiler.addInstruction, Compiler.setEmitted, updScope_scopes_length]

theorem emit_constants (c : Compiler) (op : Nat) (args : List Nat) :
    (c.emit op args).1.constants = c.constants := rfl

theorem emit_symbols (c : Compiler) (op : Nat) (args : List Nat) :
    (c.emit op args).1.symbols = c.symbols := rfl

theorem curScope_emit (c : Compiler) (op : Nat) (args : List Nat)
    (h : c.currentScope < c.scopes.length) :
    (c.emit op args).1.curScope =
      ⟨c.currentInstructions ++ Operation.NewInstruction op args,
       ⟨op, c.currentInstructions.length⟩, c.curEmitted⟩ := by
  have h2 : (c.updScope fun s =>
      { s with instructions := s.instructions ++ Operation.NewInstruction op args }).currentScope
      < (c.updScope fun s =>
      { s with instructions := s.instructions ++ Operation.NewInstruction op args }).scopes.length := by
    rw [updScope_currentScope, updScope_scopes_length]
    exact h
  simp only [Compiler.emit, Compiler.addInstruction, Compiler.setEmitted]
  rw [curScope_updScope _ _ h2, curScope_updScope _ _ h]
  simp [Compiler.currentInstructions, Compiler.curEmitted]

theorem currentInstructions_emit (c : Compiler) (op : Nat) (args : List Nat)
    (h : c.currentScope < c.scopes.length) :
    (c.emit op args).1.currentInstructions
      = c.currentInstructions ++ Operation.NewInstruction op args := by
  show ((c.emit op args).1.curScope).instructions = _
  rw [curScope_emit c op args h]

theorem curEmitted_emit (c : Compiler) (op : Nat) (args : List Nat)
    (h : c.currentScope < c.scopes.length) :
    (c.emit op args).1.curEmitted = ⟨op, c.currentInstructions.length⟩ := by
  show ((c.emit op args).1.curScope).emitted = _
  rw [curScope_emit c op args h]

theorem curScope_preventPop (c : Compiler) (h : c.currentScope < c.scopes.length) :
    c.preventPop.curScope =
      ⟨c.currentInstructions.take c.curEmitted.position,
       c.curScope.prevEmitted, c.curScope.prevEmitted⟩ := by
  simp only [Compiler.preventPop]
  rw [curScope_updScope _ _ h]
  rfl

theorem preventPop_currentScope (c : Compiler) :
    c.preventPop.currentScope = c.currentScope := rfl

theorem preventPop_scopes_length (c : Compiler) :
    c.preventPop.scopes.length = c.scopes.length := by
  simp [Compiler.preventPop, updScope_scopes_length]

theorem preventPop_constants (c : Compiler) : c.preventPop.constants = c.constants := rfl

theorem preventPop_symbols (c : Compiler) : c.preventPop.symbols = c.symbols := rfl

theorem curScope_changeInstruction (c : Compiler) (pos : Nat) (ins : List Nat)
    (h : c.currentScope < c.scopes.length) :
    (c.changeInstruction pos ins).curScope =
      { c.curScope with instructions := writeBytes c.currentInstructions pos ins } := by
  simp only [Compiler.changeInstruction]
  rw [curScope_updScope _ _ h]
  rfl

theorem changeInstruction_currentScope (c : Compiler) (pos : Nat) (ins : List Nat) :
    (c.changeInstruction pos ins).currentScope = c.currentScope := rfl

theorem changeInstruction_scopes_length (c : Compiler) (pos : Nat) (ins : List Nat) :
    (c.changeInstruction pos ins).scopes.length = c.scopes.length := by
  simp [Compiler.changeInstruction, updScope_scopes_length]

theorem changeInstruction_constants (c : Compiler) (pos : Nat) (ins : List Nat) :
    (c.changeInstruction pos ins).constants = c.constants := rfl

theorem curScope_changeEmittedTo (c : Compiler) (code : Nat)
    (h : c.currentScope < c.scopes.length) :
    (c.changeEmittedTo code).curScope =
      ⟨writeBytes c.currentInstructions c.curEmitted.position (Operation.NewInstruction code []),
       ⟨code, c.curEmitted.position⟩, c.curScope.prevEmitted⟩ := by
  have h2 : (c.changeInstruction c.curEmitted.position
      (Operation.NewInstruction code [])).currentScope
      < (c.changeInstruction c.curEmitted.position
      (Operation.NewInstruction code [])).scopes.length := by
    rw [changeInstruction_currentScope, changeInstruction_scopes_length]
    exact h
  simp only [Compiler.changeEmittedTo]
  rw [curScope_updScope _ _ h2, curScope_changeInstruction _ _ _ h]
  rfl

theorem changeEmittedTo_currentScope (c : Compiler) (code : Nat) :
    (c.changeEmittedTo code).currentScope = c.currentScope := rfl

theorem changeEmittedTo_scopes_length (c : Compiler) (code : Nat) :
    (c.changeEmittedTo code).scopes.length = c.scopes.length := by
  simp [Compiler.changeEmittedTo, Compiler.changeInstruction, updScope_scopes_length]

theorem changeEmittedTo_constants (c : Compiler) (code : Nat) :
    (c.changeEmittedTo code).constants = c.constants := rfl

theorem changeEmittedTo_symbols (c : Compiler) (code : Nat) :
    (c.changeEmittedTo code).symbols = c.symbols := rfl

theorem enterScope_currentScope (c : Compiler) :
    c.enterScope.currentScope = c.currentScope + 1 := rfl

theorem enterScope_scopes_length (c : Compiler) :
    c.enterScope.scopes.length = c.scopes.length + 1 := by
  simp [Compiler.enterScope]

theorem enterScope_constants (c : Compiler) : c.enterScope.constants = c.constants := rfl

theorem curScope_enterScope (c : Compiler) (h : c.currentScope + 1 = c.scopes.length) :
    c.enterScope.curScope = ⟨[], ⟨0, 0⟩, ⟨0, 0⟩⟩ := by
  simp only [Compiler.enterScope, Compiler.curScope]
  have : c.currentScope + 1 = c.scopes.length := h
  rw [show c.currentScope + 1 = c.scopes.length from h]
  exact getD_append_length _ _

theorem defineParams_parts (params : List String) : ∀ c : Compiler,
    (c.defineParams params).scopes = c.scopes ∧
    (c.defineParams params).currentScope = c.currentScope ∧
    (c.defineParams params).constants = c.constants := by
  induction params with
  | nil => intro c; exact ⟨rfl, rfl, rfl⟩
  | cons p ps ih =>
    intro c
    simpa [Compiler.defineParams] using ih { c with symbols := (c.symbols.define p).1 }

theorem loadSymbol_constants (c : Compiler) (s : Symbol) :
    (c.loadSymbol s).constants = c.constants := by
  cases s with
  | mk n sc i => cases sc <;> rfl

theorem foldl_loadSymbol_constants (syms : List Symbol) : ∀ c : Compiler,
    (syms.foldl Compiler.loadSymbol c).constants = c.constants := by
  induction syms with
  | nil => intro c; rfl
  | cons s ss ih =>
    intro c
    rw [List.foldl_cons, ih, loadSymbol_constants]

theorem stripPop_currentScope (c : Compiler) :
    c.stripPop.currentScope = c.currentScope := by
  simp only [Compiler.stripPop]
  by_cases h : c.isEmitted Operation.Pop <;> simp [h, preventPop_currentScope]

theorem stripPop_scopes_length (c : Compiler) :
    c.stripPop.scopes.length = c.scopes.length := by
  simp only [Compiler.stripPop]
  by_cases h : c.isEmitted Operation.Pop <;> simp [h, preventPop_scopes_length]

theorem stripPop_constants (c : Compiler) : c.stripPop.constants = c.constants := by
  simp only [Compiler.stripPop]
  by_cases h : c.isEmitted Operation.Pop <;> simp [h, preventPop_constants]

theorem getD_append_self (pre : List Nat) (a : Nat) (l : List Nat) :
    (pre ++ a :: l).getD pre.length 0 = a := by
  induction pre with
  | nil => rfl
  | cons h t ih => simpa using ih

theorem drop_append_succ {α : Type} (pre : List α) (a : α) (l : List α) :
    (pre ++ a :: l).drop (pre.length + 1) = l := by
  induction pre with
  | nil => rfl
  | cons h t ih => simpa using ih

theorem getElem_append_cons {α : Type} (pre : List α) (a : α) (l : List α)
    (h : pre.length < (pre ++ a :: l).length) : (pre ++ a :: l)[pre.length] = a := by
  induction pre with
  | nil => rfl
  | cons hd t ih => simpa using ih (by simpa using h)

theorem stack_setPointer (vm : VM) (a : Int) : (vm.setPointer a).stack = vm.stack := rfl

theorem setPointer_setPointer (vm : VM) (a b : Int) :
    (vm.setPointer a).setPointer b = vm.setPointer b := by
  cases vm with
  | mk c g s f => cases f <;> rfl

theorem setStack_setPointer (vm : VM) (s : Stack) (a : Int) :
    { vm.setPointer a with stack := s } = ({ vm with stack := s }).setPointer a := by
  cases vm with
  | mk c g st f => cases f <;> rfl

/-! ## Claim theorems -/

/-- C1 (code evaluation at the failing input): executing `Call` with
argc 0 on a `CompiledFunction` whose `ParamCount` is 2 does not produce
a `WrongArity` error — `Run` finishes without any error, having pushed a
frame whose frame pointer equals the stack pointer at call time. -/
theorem c1_call_no_arity_check :
    runOk (VM.run 10 (VM.newVM ⟨[0, 0, 0, 25, 0], [Data.compiledFunction [] 0 2]⟩)) = true ∧
    (match VM.run 10 (VM.newVM ⟨[0, 0, 0, 25, 0], [Data.compiledFunction [] 0 2]⟩) with
     | some (Except.ok vm) => (vm.frames.length, vm.currentFrame.framePointer, vm.stack.pointer)
     | _ => (0, 0, 0)) = (2, 1, 1) :=
  ⟨rfl, rfl⟩

/-- C2 (code evaluation at the failing input): the Call case of the
visible VM rejects both a Closure and a Builtin callee with the error
`calling non-function`; only a bare CompiledFunction at the top of the
stack is accepted. -/
theorem c2_call_rejects_closure_and_builtin :
    VM.run 10 (VM.newVM ⟨[0, 0, 0, 25, 0], [Data.closure [] 0 0 []]⟩)
      = some (Except.error (VMError.err "calling non-function")) ∧
    VM.run 10 (VM.newVM ⟨[0, 0, 0, 25, 0], [Data.builtin 0]⟩)
      = some (Except.error (VMError.err "calling non-function")) :=
  ⟨rfl, rfl⟩

/-- C3 counterexample: `Add` on two Strings does not push a concatenated
String — `executeBinaryOp` returns the unsupported-types error and no
`ok` result at all. -/
theorem c3_add_strings_counterexample :
    VM.executeBinaryOp ⟨[Data.string "x", Data.string "y"], 2, 2048⟩ Operation.Add
      = Except.error (VMError.err "unsupported types for binary operation: STRING STRING") ∧
    (match VM.executeBinaryOp ⟨[Data.string "x", Data.string "y"], 2, 2048⟩ Operation.Add with
     | Except.ok _ => true
     | Except.error _ => false) = false :=
  ⟨rfl, rfl⟩

/-- C3 (amended): for every binary opcode, when the two popped operands
are not both Integers — in particular two Strings — `executeBinaryOp`
fails with `unsupported types for binary operation: <l> <r>`. -/
theorem c3_binary_non_integer_error (st : Stack) (op : Nat)
    (h : ¬(st.pop.2.pop.1.typeTag = "INTEGER" ∧ st.pop.1.typeTag = "INTEGER")) :
    VM.executeBinaryOp st op = Except.error (VMError.err
      ("unsupported types for binary operation: " ++ st.pop.2.pop.1.typeTag
        ++ " " ++ st.pop.1.typeTag)) := by
  simp only [VM.executeBinaryOp]
  rw [if_neg h]

/-- C3 witness: the amended theorem applied to the two-String stack. -/
theorem c3_binary_non_integer_error_witness :
    VM.executeBinaryOp ⟨[Data.string "a", Data.string "b"], 2, 2048⟩ Operation.Add
      = Except.error (VMError.err "unsupported types for binary operation: STRING STRING") :=
  c3_binary_non_integer_error ⟨[Data.string "a", Data.string "b"], 2, 2048⟩ Operation.Add
    (by decide)

/-- C8 counterexample: the opcode `Pop`, although listed in the encoding
table, has no entry in the `operations` map of the source, so `Lookup`
fails on it. -/
theorem c8_lookup_pop_counterexample :
    Operation.Lookup Operation.Pop = Except.error "Undefined Opcode: 1" := rfl

/-- C8 (amended): `Lookup` succeeds exactly on the two opcodes present
in the source's `operations` map — `Constant` and `Add` — and returns
`Undefined Opcode: <n>` for every other byte. -/
theorem c8_lookup_spec :
    Operation.Lookup Operation.Constant = Except.ok ⟨"Constant", [2]⟩ ∧
    Operation.Lookup Operation.Add = Except.ok ⟨"Add", []⟩ ∧
    ∀ b : Nat, b ≠ Operation.Constant → b ≠ Operation.Add →
      Operation.Lookup b = Except.error ("Undefined Opcode: " ++ toString b) :=
  ⟨rfl, rfl, fun b h1 h2 => by
    simp only [Operation.Lookup, Operation.operations]
    rw [if_neg h1, if_neg h2]⟩

/-- C8 witness: the amended theorem applied at byte 9 (`Equal`). -/
theorem c8_lookup_spec_witness :
    Operation.Lookup 9 = Except.error "Undefined Opcode: 9" :=
  c8_lookup_spec.2.2 9 (by decide) (by decide)

/-- C9: integer division by zero in `executeBinaryIntegerOp` is
unguarded — with a zero right operand the outcome is the Go runtime
panic (never the handled `err` kind returned by `Run`), and with a
nonzero right operand the pushed result is the int64-wrapped value of
Lean's `Int.div`, which truncates toward zero. -/
theorem c9_div_by_zero_unguarded :
    (∀ (st : Stack) (l : Int),
      VM.executeBinaryIntegerOp st Operation.Div (Data.integer l) (Data.integer 0)
        = Except.error (VMError.goPanic "runtime error: integer divide by zero")) ∧
    (∀ (st : Stack) (l r : Int), r ≠ 0 → st.pointer < st.limit →
      VM.executeBinaryIntegerOp st Operation.Div (Data.integer l) (Data.integer r)
        = Except.ok { st with items := st.items.set st.pointer (Data.integer (wrap64 (l.div r)))
                              pointer := st.pointer + 1 }) := by
  constructor
  · intro st l
    simp [VM.executeBinaryIntegerOp, Operation.Div, Operation.Add, Operation.Sub, Operation.Mul]
  · intro st l r hr hcap
    simp [VM.executeBinaryIntegerOp, Operation.Div, Operation.Add, Operation.Sub,
      Operation.Mul, hr, Stack.push, Nat.not_le.mpr hcap]

/-- C9 witness: both parts at concrete inputs. -/
theorem c9_div_by_zero_unguarded_witness :
    VM.executeBinaryIntegerOp (Stack.newStack 4) Operation.Div (Data.integer 7) (Data.integer 0)
      = Except.error (VMError.goPanic "runtime error: integer divide by zero") ∧
    VM.executeBinaryIntegerOp (Stack.newStack 4) Operation.Div (Data.integer 7) (Data.integer 2)
      = Except.ok { Stack.newStack 4 with
          items := (Stack.newStack 4).items.set 0 (Data.integer 3), pointer := 1 } :=
  ⟨c9_div_by_zero_unguarded.1 (Stack.newStack 4) 7,
   c9_div_by_zero_unguarded.2 (Stack.newStack 4) 7 2 (by decide) (by decide)⟩

/-- C10: the dispatch switch of `Run` has no default branch: for any
opcode byte outside `handledOpcodes` (the defined-but-unhandled
GetBuiltin, GetFree and Closure as well as every undefined byte), one
loop iteration changes nothing but the one-byte pointer advance, and
`Run` finishes instruction streams consisting solely of such bytes
normally, returning no error. -/
theorem c10_no_default_branch :
    (∀ (vm : VM) (pre rest : List Nat) (b : Nat),
      b ∉ handledOpcodes →
      vm.currentFrame.instructions = pre ++ b :: rest →
      vm.currentFrame.pointer = (pre.length : Int) - 1 →
      VM.step vm = Except.ok (vm.setPointer (pre.length : Int))) ∧
    runOk (VM.run 5 (VM.newVM ⟨[Operation.GetBuiltin, Operation.GetFree], []⟩)) = true ∧
    runOk (VM.run 5 (VM.newVM ⟨[Operation.Closure, 255], []⟩)) = true := by
  refine ⟨?_, rfl, rfl⟩
  intro vm pre rest b hb hinstr hptr
  have hp1 : vm.currentFrame.pointer + 1 = (pre.length : Int) := by omega
  simp only [handledOpcodes, List.mem_cons, List.not_mem_nil, not_or, or_false] at hb
  simp [VM.step, hp1, hinstr, getD_append_self, getElem_append_cons, hb]

/-- C10 witness: the general statement applied to a fresh VM whose only
instruction byte is the unhandled `GetBuiltin` opcode. -/
theorem c10_no_default_branch_witness :
    VM.step (VM.newVM ⟨[Operation.GetBuiltin], []⟩)
      = Except.ok ((VM.newVM ⟨[Operation.GetBuiltin], []⟩).setPointer 0) :=
  c10_no_default_branch.1 (VM.newVM ⟨[Operation.GetBuiltin], []⟩) [] []
    Operation.GetBuiltin (by decide) rfl (by decide)

/-- C7: `Jump target` sets the instruction pointer to `target − 1` (the
next loop increment lands on `target`); `JumpNotTruthy` advances past
its 2-byte operand, pops the condition, and applies the same
target-minus-one adjustment exactly when the condition is not truthy;
a value is truthy unless it is Boolean false or Null. -/
theorem c7_jump_semantics :
    (∀ (vm : VM) (pre rest : List Nat) (b1 b2 : Nat),
      vm.currentFrame.instructions = pre ++ Operation.Jump :: b1 :: b2 :: rest →
      vm.currentFrame.pointer = (pre.length : Int) - 1 →
      VM.step vm = Except.ok (vm.setPointer (((b1 * 256 + b2 : Nat) : Int) - 1))) ∧
    (∀ (vm : VM) (pre rest : List Nat) (b1 b2 : Nat),
      vm.currentFrame.instructions = pre ++ Operation.JumpNotTruthy :: b1 :: b2 :: rest →
      vm.currentFrame.pointer = (pre.length : Int) - 1 →
      VM.step vm = Except.ok
        (({ vm with stack := vm.stack.pop.2 }).setPointer
          (if isTruthy vm.stack.pop.1 then (pre.length : Int) + 2
           else ((b1 * 256 + b2 : Nat) : Int) - 1))) ∧
    (∀ d : Data, isTruthy d = true ↔ d ≠ Data.boolean false ∧ d ≠ Data.null) := by
  refine ⟨?_, ?_, ?_⟩
  · intro vm pre rest b1 b2 hinstr hptr
    have hp1 : vm.currentFrame.pointer + 1 = (pre.length : Int) := by omega
    simp [VM.step, hp1, hinstr, getD_append_self, getElem_append_cons, drop_append_succ,
      Operation.ReadUint16, Operation.Jump, Operation.Pop, Operation.Constant,
      Operation.True, Operation.False, Operation.Bang, Operation.Minus,
      Operation.Add, Operation.Sub, Operation.Mul, Operation.Div,
      Operation.Equal, Operation.NotEqual, Operation.GreaterThan,
      setPointer_setPointer]
  · intro vm pre rest b1 b2 hinstr hptr
    have hp1 : vm.currentFrame.pointer + 1 = (pre.length : Int) := by omega
    by_cases ht : isTruthy vm.stack.pop.1
    · simp [VM.step, hp1, hinstr, getD_append_self, getElem_append_cons, drop_append_succ,
        Operation.ReadUint16, Operation.JumpNotTruthy, Operation.Jump, Operation.Pop,
        Operation.Constant, Operation.True, Operation.False, Operation.Bang,
        Operation.Minus, Operation.Add, Operation.Sub, Operation.Mul, Operation.Div,
        Operation.Equal, Operation.NotEqual, Operation.GreaterThan,
        setPointer_setPointer, setStack_setPointer, stack_setPointer, ht]
    · simp [VM.step, hp1, hinstr, getD_append_self, getElem_append_cons, drop_append_succ,
        Operation.ReadUint16, Operation.JumpNotTruthy, Operation.Jump, Operation.Pop,
        Operation.Constant, Operation.True, Operation.False, Operation.Bang,
        Operation.Minus, Operation.Add, Operation.Sub, Operation.Mul, Operation.Div,
        Operation.Equal, Operation.NotEqual, Operation.GreaterThan,
        setPointer_setPointer, setStack_setPointer, stack_setPointer, ht]
  · intro d
    cases d with
    | boolean b => cases b <;> simp [isTruthy]
    | null => simp [isTruthy]
    | integer v => simp [isTruthy]
    | string s => simp [isTruthy]
    | array l => simp [isTruthy]
    | hash l => simp [isTruthy]
    | compiledFunction a b c => simp [isTruthy]
    | builtin i => simp [isTruthy]
    | closure a b c d => simp [isTruthy]

theorem insertPair_perm (x : Node × Node) (l : List (Node × Node)) :
    (insertPair x l).Perm (x :: l) := by
  induction l with
  | nil => simp [insertPair]
  | cons y ys ih =>
    simp only [insertPair]
    by_cases h : render x.1 < render y.1
    · rw [if_pos h]
    · rw [if_neg h]
      exact (ih.cons y).trans (List.Perm.swap x y ys)

theorem sortPairs_perm (l : List (Node × Node)) : (sortPairs l).Perm l := by
  induction l with
  | nil => simp [sortPairs]
  | cons x xs ih => exact (insertPair_perm x (sortPairs xs)).trans (ih.cons x)

theorem insertPair_sorted (x : Node × Node) (l : List (Node × Node))
    (hl : l.Pairwise (fun a b => ¬(render b.1 < render a.1))) :
    (insertPair x l).Pairwise (fun a b => ¬(render b.1 < render a.1)) := by
  induction l with
  | nil => simp [insertPair]
  | cons y ys ih =>
    rcases List.pairwise_cons.mp hl with ⟨hy, hys⟩
    simp only [insertPair]
    by_cases h : render x.1 < render y.1
    · rw [if_pos h]
      refine List.pairwise_cons.mpr ⟨?_, hl⟩
      intro z hz
      rcases List.mem_cons.mp hz with rfl | hz2
      · exact lt_asymm h
      · intro hc
        exact hy z hz2 (lt_trans hc h)
    · rw [if_neg h]
      refine List.pairwise_cons.mpr ⟨?_, ih hys⟩
      intro z hz
      rcases List.mem_cons.mp ((insertPair_perm x ys).mem_iff.mp hz) with rfl | hz4
      · exact h
      · exact hy z hz4

theorem sortPairs_sorted (l : List (Node × Node)) :
    (sortPairs l).Pairwise (fun a b => ¬(render b.1 < render a.1)) := by
  induction l with
  | nil => simp [sortPairs]
  | cons x xs ih => exact insertPair_sorted x (sortPairs xs) ih

theorem sorted_perm_render_eq (l₁ : List (Node × Node)) :
    ∀ l₂ : List (Node × Node), l₁.Perm l₂ →
      l₁.Pairwise (fun a b => ¬(render b.1 < render a.1)) →
      l₂.Pairwise (fun a b => ¬(render b.1 < render a.1)) →
      (l₁.map (fun kv => render kv.1)).Nodup → l₁ = l₂ := by
  induction l₁ with
  | nil =>
    intro l₂ hp _ _ _
    cases l₂ with
    | nil => rfl
    | cons b t₂ => have := hp.length_eq; simp at this
  | cons a t₁ ih =>
    intro l₂ hp hs₁ hs₂ hnd
    cases l₂ with
    | nil => have := hp.length_eq; simp at this
    | cons b t₂ =>
      by_cases hab : a = b
      · subst hab
        have ht : t₁.Perm t₂ := hp.cons_inv
        have htl := ih t₂ ht (List.pairwise_cons.mp hs₁).2 (List.pairwise_cons.mp hs₂).2
          (by simpa using (List.nodup_cons.mp (by simpa using hnd)).2)
        rw [htl]
      · exfalso
        have hbmem : b ∈ a :: t₁ := hp.symm.subset (List.mem_cons_self b t₂)
        have hamem : a ∈ b :: t₂ := hp.subset (List.mem_cons_self a t₁)
        have hb1 : b ∈ t₁ := by
          rcases List.mem_cons.mp hbmem with h | h
          · exact absurd h.symm hab
          · exact h
        have ha2 : a ∈ t₂ := by
          rcases List.mem_cons.mp hamem with h | h
          · exact absurd h hab
          · exact h
        have hRa : ¬(render b.1 < render a.1) := (List.pairwise_cons.mp hs₁).1 b hb1
        have hRb : ¬(render a.1 < render b.1) := (List.pairwise_cons.mp hs₂).1 a ha2
        have heq : render a.1 = render b.1 := le_antisymm (not_lt.mp hRa) (not_lt.mp hRb)
        have hnotin : render a.1 ∉ t₁.map (fun kv => render kv.1) :=
          (List.nodup_cons.mp (by simpa using hnd)).1
        exact hnotin (heq ▸ List.mem_map_of_mem _ hb1)

theorem sortPairs_eq_of_perm (p q : List (Node × Node)) (hperm : p.Perm q)
    (hnd : (p.map (fun kv => render kv.1)).Nodup) : sortPairs p = sortPairs q :=
  sorted_perm_render_eq (sortPairs p) (sortPairs q)
    ((sortPairs_perm p).trans (hperm.trans (sortPairs_perm q).symm))
    (sortPairs_sorted p) (sortPairs_sorted q)
    (((sortPairs_perm p).map (fun kv => render kv.1)).nodup_iff.mpr hnd)

/-- C6: compilation is deterministic: the compiler is a pure function of
the AST, and the one source of nondeterminism — the unordered map behind
a HashLiteral, modelled here as the order of its pair list — is
neutralised by sorting the keys by their textual rendering, so compiling
two hash literals whose pair lists are permutations of one another (with
distinct key renderings, as sortability demands) produces identical
compiler states and hence byte-identical Bytecode. -/
theorem c6_deterministic_hash_order (p q : List (Node × Node)) (c : Compiler)
    (hperm : p.Perm q) (hnd : (p.map (fun kv => render kv.1)).Nodup) :
    compile (Node.hashLiteral p) c = compile (Node.hashLiteral q) c := by
  have hs := sortPairs_eq_of_perm p q hperm hnd
  have hl := hperm.length_eq
  simp only [compile, hs, hl]

/-- C6 witness: two orderings of the same two-entry hash literal compile
to the same result from a fresh compiler. -/
theorem c6_deterministic_hash_order_witness :
    compile (Node.hashLiteral [(Node.integerLiteral 1, Node.integerLiteral 10),
        (Node.integerLiteral 2, Node.integerLiteral 20)]) Compiler.new
      = compile (Node.hashLiteral [(Node.integerLiteral 2, Node.integerLiteral 20),
        (Node.integerLiteral 1, Node.integerLiteral 10)]) Compiler.new :=
  c6_deterministic_hash_order _ _ Compiler.new (List.Perm.swap _ _ _) (by decide)

theorem newinstr_pop (args : List Nat) :
    Operation.NewInstruction Operation.Pop args = [Operation.Pop] := rfl
theorem newinstr_rv (args : List Nat) :
    Operation.NewInstruction Operation.ReturnValue args = [Operation.ReturnValue] := rfl
theorem newinstr_jnt (t : Nat) :
    Operation.NewInstruction Operation.JumpNotTruthy [t]
      = [Operation.JumpNotTruthy, t / 256 % 256, t % 256] := rfl
theorem newinstr_jump (t : Nat) :
    Operation.NewInstruction Operation.Jump [t]
      = [Operation.Jump, t / 256 % 256, t % 256] := rfl
theorem newinstr_null (args : List Nat) :
    Operation.NewInstruction Operation.Null args = [Operation.Null] := rfl

theorem stripPop_shape (c c2 : Compiler)
    (hwf2 : c2.currentScope < c2.scopes.length)
    (e2d : ∃ d, c2.currentInstructions = c.currentInstructions ++ d)
    (p2 : LastShape c c2 Operation.Pop) :
    ∃ cc, c2.stripPop.currentInstructions = c.currentInstructions ++ cc ∧
      (c2.isEmitted Operation.Pop = true →
        c2.currentInstructions = c.currentInstructions ++ cc ++ [Operation.Pop]) ∧
      (c2.isEmitted Operation.Pop = false →
        c2.currentInstructions = c.currentInstructions ++ cc) := by
  obtain ⟨d, hd⟩ := e2d
  by_cases hP : c2.isEmitted Operation.Pop = true
  · have hop : c2.curEmitted.opcode = Operation.Pop := by
      simp [Compiler.isEmitted] at hP
      exact hP.2
    obtain ⟨pre, args, hci, hpos, hle⟩ := p2 hop
    have hciP : c2.currentInstructions = pre ++ [Operation.Pop] := by
      rw [hci, newinstr_pop]
    have hsplit : ∃ cc, pre = c.currentInstructions ++ cc := by
      have heq : c.currentInstructions ++ d = pre ++ [Operation.Pop] := by
        rw [← hd, hciP]
      rcases List.append_eq_append_iff.mp heq with ⟨a2, ha, _⟩ | ⟨c2x, hc, hx⟩
      · exact ⟨a2, ha⟩
      · have hlen : c2x.length = 0 := by
          have := congrArg List.length hc
          simp at this
          omega
        have : c2x = [] := List.eq_nil_of_length_eq_zero hlen
        subst this
        exact ⟨[], by simpa using hc.symm⟩
    obtain ⟨cc, hpre⟩ := hsplit
    refine ⟨cc, ?_, ?_, ?_⟩
    · have hstrip : c2.stripPop = c2.preventPop := by
        simp [Compiler.stripPop, hP]
      rw [hstrip]
      have : c2.preventPop.currentInstructions
          = c2.currentInstructions.take c2.curEmitted.position := by
        show (c2.preventPop.curScope).instructions = _
        rw [curScope_preventPop _ hwf2]
      rw [this, hciP, hpos, List.take_left, hpre]
    · intro _
      rw [hciP, hpre, List.append_assoc]
    · intro hfalse
      rw [hP] at hfalse
      cases hfalse
  · have hPf : c2.isEmitted Operation.Pop = false := by
      cases hx : c2.isEmitted Operation.Pop
      · rfl
      · exact absurd hx hP
    refine ⟨d, ?_, ?_, ?_⟩
    · have : c2.stripPop = c2 := by simp [Compiler.stripPop, hPf]
      rw [this, hd]
    · intro hfalse
      rw [hPf] at hfalse
      cases hfalse
    · intro _
      exact hd

theorem changeOperand_ci (c : Compiler) (X Z : List Nat) (b1 b2 op target : Nat)
    (hwf : c.currentScope < c.scopes.length)
    (hci : c.currentInstructions = X ++ [op, b1, b2] ++ Z)
    (hlen : (Operation.NewInstruction op [target]).length = 3) :
    (c.changeOperand X.length target).currentInstructions
      = X ++ Operation.NewInstruction op [target] ++ Z := by
  have hop : c.currentInstructions.getD X.length 0 = op := by
    rw [hci]
    have hsh : X ++ [op, b1, b2] ++ Z = X ++ op :: (b1 :: b2 :: Z) := by simp
    rw [hsh]
    exact getD_append_self _ _ _
  simp only [Compiler.changeOperand, hop]
  have hwr : (c.changeInstruction X.length
      (Operation.NewInstruction op [target])).currentInstructions
      = writeBytes c.currentInstructions X.length (Operation.NewInstruction op [target]) := by
    show ((c.changeInstruction X.length (Operation.NewInstruction op [target])).curScope).instructions = _
    rw [curScope_changeInstruction _ _ _ hwf]
  rw [hwr, hci, writeBytes_append _ _ _ _ (by simp [hlen])]

theorem changeOperand_currentScope (c : Compiler) (p t : Nat) :
    (c.changeOperand p t).currentScope = c.currentScope := rfl

theorem changeOperand_scopes_length (c : Compiler) (p t : Nat) :
    (c.changeOperand p t).scopes.length = c.scopes.length := by
  simp [Compiler.changeOperand, Compiler.changeInstruction, updScope_scopes_length]

/-- C4: compiling an IfExpression emits `JumpNotTruthy` with the 9999
placeholder, compiles the consequent and removes a just-emitted trailing
`Pop`, emits `Jump` with a placeholder, patches the `JumpNotTruthy`
operand to the position just past that `Jump`, then emits `Null` when
there is no alternate and otherwise compiles the alternate with the same
trailing-`Pop` strip, and finally patches the `Jump` operand to the
current end of the instruction stream. -/
theorem c4_if_compilation
    (cond conseq : Node) (alt : Option Node) (c0 c1 c2 : Compiler)
    (hwf : c0.currentScope + 1 = c0.scopes.length)
    (h1 : compile cond c0 = Except.ok c1)
    (e1 : ScopeExt c0 c1)
    (h2 : compile conseq (c1.emit Operation.JumpNotTruthy [9999]).1 = Except.ok c2)
    (e2 : ScopeExt (c1.emit Operation.JumpNotTruthy [9999]).1 c2)
    (p2 : LastShape (c1.emit Operation.JumpNotTruthy [9999]).1 c2 Operation.Pop) :
    ∃ consCode,
      c2.stripPop.currentInstructions
        = c1.currentInstructions
          ++ Operation.NewInstruction Operation.JumpNotTruthy [9999] ++ consCode ∧
      (alt = none →
        ∃ cF, compile (Node.ifExpression cond conseq alt) c0 = Except.ok cF ∧
          cF.currentInstructions
            = c1.currentInstructions
              ++ Operation.NewInstruction Operation.JumpNotTruthy
                  [c1.currentInstructions.length + consCode.length + 6]
              ++ consCode
              ++ Operation.NewInstruction Operation.Jump
                  [c1.currentInstructions.length + consCode.length + 7]
              ++ [Operation.Null]) ∧
      (∀ a c5, alt = some a →
        compile a ((c2.stripPop.emit Operation.Jump [9999]).1.changeOperand
            (c1.emit Operation.JumpNotTruthy [9999]).2
            (c2.stripPop.emit Operation.Jump [9999]).1.currentInstructions.length)
          = Except.ok c5 →
        ScopeExt ((c2.stripPop.emit Operation.Jump [9999]).1.changeOperand
            (c1.emit Operation.JumpNotTruthy [9999]).2
            (c2.stripPop.emit Operation.Jump [9999]).1.currentInstructions.length) c5 →
        LastShape ((c2.stripPop.emit Operation.Jump [9999]).1.changeOperand
            (c1.emit Operation.JumpNotTruthy [9999]).2
            (c2.stripPop.emit Operation.Jump [9999]).1.currentInstructions.length) c5
          Operation.Pop →
        ∃ altCode cF,
          c5.stripPop.currentInstructions
            = ((c2.stripPop.emit Operation.Jump [9999]).1.changeOperand
                (c1.emit Operation.JumpNotTruthy [9999]).2
                (c2.stripPop.emit Operation.Jump [9999]).1.currentInstructions.length
              ).currentInstructions ++ altCode ∧
          compile (Node.ifExpression cond conseq alt) c0 = Except.ok cF ∧
          cF.currentInstructions
            = c1.currentInstructions
              ++ Operation.NewInstruction Operation.JumpNotTruthy
                  [c1.currentInstructions.length + consCode.length + 6]
              ++ consCode
              ++ Operation.NewInstruction Operation.Jump
                  [c1.currentInstructions.length + consCode.length + 6 + altCode.length]
              ++ altCode) := by
  obtain ⟨hcs1, hlen1, hk1, hd1⟩ := e1
  have hwf1 : c1.currentScope < c1.scopes.length := by
    rw [hcs1, hlen1]
    omega
  have hcJci : (c1.emit Operation.JumpNotTruthy [9999]).1.currentInstructions
      = c1.currentInstructions ++ [Operation.JumpNotTruthy, 39, 15] := by
    rw [currentInstructions_emit _ _ _ hwf1]
    rfl
  obtain ⟨hcs2, hlen2, hk2, e2d⟩ := e2
  have hwf2 : c2.currentScope < c2.scopes.length := by
    rw [hcs2, hlen2, emit_currentScope, emit_scopes_length]
    exact hwf1
  obtain ⟨cc, hstrip, hccP, hccN⟩ := stripPop_shape _ c2 hwf2 e2d p2
  have hstrip2 : c2.stripPop.currentInstructions
      = c1.currentInstructions ++ [Operation.JumpNotTruthy, 39, 15] ++ cc := by
    rw [hstrip, hcJci]
  have hwf2s : c2.stripPop.currentScope < c2.stripPop.scopes.length := by
    rw [stripPop_currentScope, stripPop_scopes_length]
    exact hwf2
  have hEci : ((c2.stripPop.emit Operation.Jump [9999]).1).currentInstructions
      = c1.currentInstructions ++ [Operation.JumpNotTruthy, 39, 15] ++ cc
        ++ [Operation.Jump, 39, 15] := by
    rw [currentInstructions_emit _ _ _ hwf2s, hstrip2]
    rfl
  have hwfE : ((c2.stripPop.emit Operation.Jump [9999]).1).currentScope
      < ((c2.stripPop.emit Operation.Jump [9999]).1).scopes.length := by
    rw [emit_currentScope, emit_scopes_length]
    exact hwf2s
  have hT : ((c2.stripPop.emit Operation.Jump [9999]).1).currentInstructions.length
      = c1.currentInstructions.length + cc.length + 6 := by
    rw [hEci]
    simp
    omega
  have hc4ci : (((c2.stripPop.emit Operation.Jump [9999]).1).changeOperand
        (c1.emit Operation.JumpNotTruthy [9999]).2
        ((c2.stripPop.emit Operation.Jump [9999]).1).currentInstructions.length).currentInstructions
      = c1.currentInstructions
        ++ Operation.NewInstruction Operation.JumpNotTruthy
            [c1.currentInstructions.length + cc.length + 6]
        ++ (cc ++ [Operation.Jump, 39, 15]) := by
    rw [hT]
    have hpos : (c1.emit Operation.JumpNotTruthy [9999]).2
        = c1.currentInstructions.length := rfl
    rw [hpos]
    exact changeOperand_ci _ c1.currentInstructions (cc ++ [Operation.Jump, 39, 15])
      39 15 Operation.JumpNotTruthy _ hwfE (by rw [hEci]; simp) rfl
  have hwf4 : ((((c2.stripPop.emit Operation.Jump [9999]).1).changeOperand
        (c1.emit Operation.JumpNotTruthy [9999]).2
        ((c2.stripPop.emit Operation.Jump [9999]).1).currentInstructions.length)).currentScope
      < ((((c2.stripPop.emit Operation.Jump [9999]).1).changeOperand
        (c1.emit Operation.JumpNotTruthy [9999]).2
        ((c2.stripPop.emit Operation.Jump [9999]).1).currentInstructions.length)).scopes.length := by
    rw [changeOperand_currentScope, changeOperand_scopes_length]
    exact hwfE
  have hjmpPos : (c2.stripPop.emit Operation.Jump [9999]).2
      = (c1.currentInstructions
          ++ Operation.NewInstruction Operation.JumpNotTruthy
              [c1.currentInstructions.length + cc.length + 6]
          ++ cc).length := by
    rw [emit_pos, hstrip2]
    simp [newinstr_jnt]
  refine ⟨cc, by rw [hstrip2]; rfl, ?_, ?_⟩
  · rintro rfl
    simp only [compile, h1, h2, Except.bind, compileAlt]
    refine ⟨_, rfl, ?_⟩
    have h5ci : ((((c2.stripPop.emit Operation.Jump [9999]).1).changeOperand
          (c1.emit Operation.JumpNotTruthy [9999]).2
          ((c2.stripPop.emit Operation.Jump [9999]).1).currentInstructions.length).emit
          Operation.Null []).1.currentInstructions
        = (c1.currentInstructions
            ++ Operation.NewInstruction Operation.JumpNotTruthy
                [c1.currentInstructions.length + cc.length + 6]
            ++ cc) ++ [Operation.Jump, 39, 15] ++ [Operation.Null] := by
      rw [currentInstructions_emit _ _ _ hwf4, hc4ci, newinstr_null]
      simp [List.append_assoc]
    have hwf5 : ((((c2.stripPop.emit Operation.Jump [9999]).1).changeOperand
          (c1.emit Operation.JumpNotTruthy [9999]).2
          ((c2.stripPop.emit Operation.Jump [9999]).1).currentInstructions.length).emit
          Operation.Null []).1.currentScope
        < ((((c2.stripPop.emit Operation.Jump [9999]).1).changeOperand
          (c1.emit Operation.JumpNotTruthy [9999]).2
          ((c2.stripPop.emit Operation.Jump [9999]).1).currentInstructions.length).emit
          Operation.Null []).1.scopes.length := by
      rw [emit_currentScope, emit_scopes_length]
      exact hwf4
    have hlen5 : ((((c2.stripPop.emit Operation.Jump [9999]).1).changeOperand
          (c1.emit Operation.JumpNotTruthy [9999]).2
          ((c2.stripPop.emit Operation.Jump [9999]).1).currentInstructions.length).emit
          Operation.Null []).1.currentInstructions.length
        = c1.currentInstructions.length + cc.length + 7 := by
      rw [h5ci]
      simp [newinstr_jnt]
      omega
    rw [hjmpPos, hlen5]
    rw [changeOperand_ci _ _ [Operation.Null] 39 15 Operation.Jump _ hwf5 (by rw [h5ci]) rfl]
  · rintro a c5 rfl h5 e5 p5
    obtain ⟨hcs5, hlen5x, hk5, e5d⟩ := e5
    have hwf5 : c5.currentScope < c5.scopes.length := by
      rw [hcs5, hlen5x, changeOperand_currentScope, changeOperand_scopes_length,
        emit_currentScope, emit_scopes_length]
      exact hwf2s
    obtain ⟨ac, hstrip5, hacP, hacN⟩ := stripPop_shape _ c5 hwf5 e5d p5
    simp only [compile, h1, h2, Except.bind, compileAlt, h5, Except.map]
    refine ⟨ac, _, hstrip5, rfl, ?_⟩
    have hs5ci : c5.stripPop.currentInstructions
        = (c1.currentInstructions
            ++ Operation.NewInstruction Operation.JumpNotTruthy
                [c1.currentInstructions.length + cc.length + 6]
            ++ cc) ++ [Operation.Jump, 39, 15] ++ ac := by
      rw [hstrip5, hc4ci]
      simp [List.append_assoc]
    have hwf5s : c5.stripPop.currentScope < c5.stripPop.scopes.length := by
      rw [stripPop_currentScope, stripPop_scopes_length]
      exact hwf5
    have hlen5s : c5.stripPop.currentInstructions.length
        = c1.currentInstructions.length + cc.length + 6 + ac.length := by
      rw [hs5ci]
      simp [newinstr_jnt]
      omega
    rw [hjmpPos, hlen5s]
    rw [changeOperand_ci _ _ ac 39 15 Operation.Jump _ hwf5s (by rw [hs5ci]) rfl]

/-- C4 witness: compiling `if (true) { }` (empty consequent, no
alternate) from a fresh compiler yields exactly
`True; JumpNotTruthy 7; Jump 8; Null`. -/
theorem c4_if_compilation_witness :
    ∃ cF, compile (Node.ifExpression (Node.boolean true) (Node.blockStatement []) none)
        Compiler.new = Except.ok cF ∧
      cF.currentInstructions
        = [Operation.True] ++ Operation.NewInstruction Operation.JumpNotTruthy [7]
          ++ Operation.NewInstruction Operation.Jump [8] ++ [Operation.Null] := by
  obtain ⟨cc, hcc, hnone, _⟩ := c4_if_compilation (Node.boolean true) (Node.blockStatement []) none
    Compiler.new (Compiler.new.emit Operation.True []).1
    ((Compiler.new.emit Operation.True []).1.emit Operation.JumpNotTruthy [9999]).1
    (by decide) (by simp [compile])
    ⟨rfl, rfl, ⟨[], rfl⟩, ⟨[Operation.True], rfl⟩⟩
    (by simp [compile, compileList])
    ⟨rfl, rfl, ⟨[], rfl⟩, ⟨[], rfl⟩⟩
    (fun h => absurd h (by decide))
  obtain ⟨cF, hF, hFci⟩ := hnone rfl
  have hccnil : cc = [] := by
    have h := hcc
    rw [show (((Compiler.new.emit Operation.True []).1.emit
        Operation.JumpNotTruthy [9999]).1).stripPop.currentInstructions
        = [Operation.True, Operation.JumpNotTruthy, 39, 15] from rfl] at h
    rw [show (Compiler.new.emit Operation.True []).1.currentInstructions
        = [Operation.True] from rfl] at h
    simp [Operation.NewInstruction, Operation.encodeOperands, Operation.encodeOperand,
      Operation.operandWidths] at h
    exact h
  subst hccnil
  refine ⟨cF, hF, ?_⟩
  rw [hFci]
  rfl
/-- C5: compiling a FunctionLiteral, after the body: a trailing `Pop`
is rewritten in place into `ReturnValue` (same byte length, implicit
return of the last expression); when the body already ends in
`ReturnValue` nothing is added; otherwise a `Return` is appended — so
the CompiledFunction constant stored for the literal always ends in
`ReturnValue` or `Return`. -/
theorem c5_function_body_termination
    (params : List String) (body : Node) (c0 c2 : Compiler)
    (hwf : c0.currentScope + 1 = c0.scopes.length)
    (hbody : compile body (c0.enterScope.defineParams params) = Except.ok c2)
    (e2 : ScopeExt (c0.enterScope.defineParams params) c2)
    (pPop : LastShape (c0.enterScope.defineParams params) c2 Operation.Pop)
    (pRV : LastShape (c0.enterScope.defineParams params) c2 Operation.ReturnValue) :
    ∃ cF fnInstr mid,
      compile (Node.functionLiteral params body) c0 = Except.ok cF ∧
      cF.constants = c0.constants ++ mid ++
        [Data.compiledFunction fnInstr c2.symbols.definitionCount params.length] ∧
      (c2.isEmitted Operation.Pop = true →
        fnInstr = c2.currentInstructions.dropLast ++ [Operation.ReturnValue] ∧
        fnInstr.length = c2.currentInstructions.length) ∧
      (c2.isEmitted Operation.Pop = false → c2.isEmitted Operation.ReturnValue = true →
        fnInstr = c2.currentInstructions) ∧
      (c2.isEmitted Operation.Pop = false → c2.isEmitted Operation.ReturnValue = false →
        fnInstr = c2.currentInstructions ++ [Operation.Return]) ∧
      (fnInstr.getLast? = some Operation.ReturnValue ∨ fnInstr.getLast? = some Operation.Return) := by
  obtain ⟨hcs2, hlen2, ⟨k, hconst2⟩, ⟨d, hci2⟩⟩ := e2
  obtain ⟨hsc_in, hcs_in, hconst_in⟩ := defineParams_parts params c0.enterScope
  have hwf2 : c2.currentScope < c2.scopes.length := by
    rw [hcs2, hlen2, hcs_in, hsc_in, enterScope_currentScope, enterScope_scopes_length]
    omega
  have hlv2 : ∀ c : Compiler, (Compiler.leaveScope c).2 = c.currentInstructions := fun _ => rfl
  have hlv1c : ∀ c : Compiler, (Compiler.leaveScope c).1.constants = c.constants := fun _ => rfl
  have haddc : ∀ (c : Compiler) (dd : Data),
      (c.addConstant dd).1.constants = c.constants ++ [dd] := fun _ _ => rfl
  by_cases hP : c2.isEmitted Operation.Pop = true
  · have hop : c2.curEmitted.opcode = Operation.Pop := by
      simp [Compiler.isEmitted] at hP
      exact hP.2
    obtain ⟨pre, args, hci, hpos, hle⟩ := pPop hop
    have hciP : c2.currentInstructions = pre ++ [Operation.Pop] := by
      rw [hci, newinstr_pop]
    have hc3scope : (c2.changeEmittedTo Operation.ReturnValue).curScope =
        ⟨pre ++ [Operation.ReturnValue], ⟨Operation.ReturnValue, pre.length⟩,
         c2.curScope.prevEmitted⟩ := by
      rw [curScope_changeEmittedTo _ _ hwf2, newinstr_rv, hciP, hpos]
      have hsplit : pre ++ [Operation.Pop] = pre ++ [Operation.Pop] ++ [] := by simp
      rw [hsplit, writeBytes_append _ _ _ _ (by rfl)]
      simp
    have hc3ci : (c2.changeEmittedTo Operation.ReturnValue).currentInstructions
        = pre ++ [Operation.ReturnValue] := by
      show ((c2.changeEmittedTo Operation.ReturnValue).curScope).instructions = _
      rw [hc3scope]
    have hc3RV : (c2.changeEmittedTo Operation.ReturnValue).isEmitted Operation.ReturnValue
        = true := by
      have he : (c2.changeEmittedTo Operation.ReturnValue).curEmitted =
          ⟨Operation.ReturnValue, pre.length⟩ := by
        show ((c2.changeEmittedTo Operation.ReturnValue).curScope).emitted = _
        rw [hc3scope]
      simp [Compiler.isEmitted, hc3ci, he]
    simp only [compile, hbody, Except.bind, hP, eq_self_iff_true, if_true, hc3RV]
    refine ⟨_, pre ++ [Operation.ReturnValue], k, rfl, ?_, ?_, ?_, ?_, ?_⟩
    · rw [emit_constants, haddc, foldl_loadSymbol_constants, hlv1c, hlv2,
        changeEmittedTo_constants, changeEmittedTo_symbols, hconst2, hconst_in,
        enterScope_constants, hc3ci]
    · intro _
      refine ⟨?_, ?_⟩
      · rw [hciP]
        simp
      · rw [hciP]
        simp
    · intro hfalse
      simp [hP] at hfalse
    · intro hfalse
      simp [hP] at hfalse
    · left
      simp
  · have hPf : c2.isEmitted Operation.Pop = false := by
      cases hx : c2.isEmitted Operation.Pop
      · rfl
      · exact absurd hx hP
    by_cases hR : c2.isEmitted Operation.ReturnValue = true
    · have hop : c2.curEmitted.opcode = Operation.ReturnValue := by
        simp [Compiler.isEmitted] at hR
        exact hR.2
      obtain ⟨pre, args, hci, hpos, hle⟩ := pRV hop
      have hciR : c2.currentInstructions = pre ++ [Operation.ReturnValue] := by
        rw [hci, newinstr_rv]
      simp only [compile, hbody, Except.bind, hPf, Bool.false_eq_true, if_false,
        hR, eq_self_iff_true, if_true]
      refine ⟨_, c2.currentInstructions, k, rfl, ?_, ?_, ?_, ?_, ?_⟩
      · rw [emit_constants, haddc, foldl_loadSymbol_constants, hlv1c, hlv2,
          hconst2, hconst_in, enterScope_constants]
      · intro hfalse
        simp [hPf] at hfalse
      · intro _ _
        rfl
      · intro _ hfalse
        simp [hR] at hfalse
      · left
        rw [hciR]
        simp
    · have hRf : c2.isEmitted Operation.ReturnValue = false := by
        cases hx : c2.isEmitted Operation.ReturnValue
        · rfl
        · exact absurd hx hR
      have hc4ci : ((c2.emit Operation.Return []).1).currentInstructions
          = c2.currentInstructions ++ [Operation.Return] := by
        rw [currentInstructions_emit _ _ _ hwf2]
        rfl
      simp only [compile, hbody, Except.bind, hPf, hRf, Bool.false_eq_true, if_false]
      refine ⟨_, c2.currentInstructions ++ [Operation.Return], k, rfl, ?_, ?_, ?_, ?_, ?_⟩
      · rw [emit_constants, haddc, foldl_loadSymbol_constants, hlv1c, hlv2,
          emit_constants, emit_symbols, hconst2, hconst_in, enterScope_constants, hc4ci]
      · intro hfalse
        simp [hPf] at hfalse
      · intro _ hfalse
        simp [hRf] at hfalse
      · intro _ _
        rfl
      · right
        simp

/-- C5 witness: the theorem applied to `fn() { }` (empty body) from a
fresh compiler; the compiled body is a single `Return`. -/
theorem c5_function_body_termination_witness :
    ∃ cF, compile (Node.functionLiteral [] (Node.blockStatement [])) Compiler.new
        = Except.ok cF ∧ ∃ pre fnInstr,
      cF.constants = pre ++ [Data.compiledFunction fnInstr 0 0] ∧
      (fnInstr.getLast? = some Operation.ReturnValue ∨
        fnInstr.getLast? = some Operation.Return) := by
  obtain ⟨cF, fnInstr, mid, h1, h2, _, _, _, h6⟩ :=
    c5_function_body_termination [] (Node.blockStatement []) Compiler.new
      Compiler.new.enterScope (by decide)
      (by simp [compile, compileList, Compiler.defineParams])
      ⟨rfl, rfl, ⟨[], by simp [Compiler.defineParams]⟩, ⟨[], by simp [Compiler.defineParams]⟩⟩
      (fun h => absurd h (by decide)) (fun h => absurd h (by decide))
  refine ⟨cF, h1, Compiler.new.constants ++ mid, fnInstr, ?_, h6⟩
  rw [h2, List.append_assoc]
  exact rfl

/-- C7 witness: all three parts at concrete inputs — a `Jump 0`
instruction, a `JumpNotTruthy 5` over a truthy condition, and the
truthiness of an Integer. -/
theorem c7_jump_semantics_witness :
    VM.step (VM.newVM ⟨[Operation.Jump, 0, 7], []⟩)
      = Except.ok ((VM.newVM ⟨[Operation.Jump, 0, 7], []⟩).setPointer 6) ∧
    VM.step ⟨[], [], ⟨[Data.boolean true], 1, 10⟩, [⟨[Operation.JumpNotTruthy, 0, 9], 0, 0, -1, 0⟩]⟩
      = Except.ok
        (({ (⟨[], [], ⟨[Data.boolean true], 1, 10⟩,
              [⟨[Operation.JumpNotTruthy, 0, 9], 0, 0, -1, 0⟩]⟩ : VM) with
            stack := (⟨[Data.boolean true], 0, 10⟩ : Stack) }).setPointer 2) ∧
    (isTruthy (Data.integer 5) = true ↔
      Data.integer 5 ≠ Data.boolean false ∧ Data.integer 5 ≠ Data.null) :=
  ⟨c7_jump_semantics.1 (VM.newVM ⟨[Operation.Jump, 0, 7], []⟩) [] [] 0 7 rfl (by decide),
   c7_jump_semantics.2.1
     ⟨[], [], ⟨[Data.boolean true], 1, 10⟩, [⟨[Operation.JumpNotTruthy, 0, 9], 0, 0, -1, 0⟩]⟩
     [] [] 0 9 rfl (by decide),
   c7_jump_semantics.2.2 (Data.integer 5)⟩

end Ape
